import Mathlib

/-!
Verification of the SVLocusSet merge engine (src/src/c++/lib/manta/SVLocusSet.cpp).

The repository source contains only SVLocusSet.cpp.  The supporting types
(GenomeInterval, SVLocusNode, SVLocus, the node-address comparator of the
global index, and the index-maintenance notifier) live in headers that are
not part of the source tree; those parts are modelled from the
natural-language specification and are marked as such in their doc comments.
Everything else is a direct shallow embedding of SVLocusSet.cpp.
-/

/-- Modelled from the spec: the Interval component (GenomeInterval with a
half-open known_pos_range), missing from src/.  Fields: chromosome id,
range begin, range end. -/
structure GenomeInterval where
  tid : Int
  bpos : Int
  epos : Int
deriving DecidableEq, Repr

instance : Inhabited GenomeInterval := ⟨⟨0, 0, 0⟩⟩

namespace GenomeInterval

/-- Modelled from the spec: half-open interval overlap test
GenomeInterval::isIntersect, missing from src/. -/
def isIntersect (a b : GenomeInterval) : Bool :=
  a.tid == b.tid && a.bpos < b.epos && b.bpos < a.epos

/-- Modelled from the spec: known_pos_range::is_superset_of, missing from
src/.  The superset test in SVLocusSet.cpp line 138 is applied to the range
only, so the chromosome id is not consulted. -/
def rangeSuperset (a b : GenomeInterval) : Bool :=
  a.bpos ≤ b.bpos && b.epos ≤ a.epos

/-- Modelled from the spec: GenomeInterval ordering, primarily by chromosome
then begin position (then end position for a total order on intervals);
missing from src/.  Used as the key order of the input-node map of merge. -/
def lt (a b : GenomeInterval) : Bool :=
  a.tid < b.tid || (a.tid == b.tid &&
    (a.bpos < b.bpos || (a.bpos == b.bpos && a.epos < b.epos)))

end GenomeInterval

/-- NodeAddressType = std::pair<LocusIndexType,NodeIndexType>. -/
abbrev NodeAddressType := Nat × Nat

/-- std::pair lexicographic order on node addresses. -/
def addrLT (a b : NodeAddressType) : Bool :=
  a.1 < b.1 || (a.1 == b.1 && a.2 < b.2)

/-- Modelled from the spec: one LocusNode, an interval plus an observation
count plus intra-locus edges (sibling slot, edge observation count);
missing from src/. -/
structure SVLocusNode where
  interval : GenomeInterval
  count : Nat
  edges : List (Nat × Nat)
deriving DecidableEq, Repr

instance : Inhabited SVLocusNode := ⟨⟨default, 0, []⟩⟩

/-- Modelled from the spec: a Locus, an ordered slot-addressed collection of
nodes forming one connected component, carrying its index within the
collection; missing from src/. -/
structure SVLocus where
  index : Nat
  nodes : List SVLocusNode
deriving DecidableEq, Repr

instance : Inhabited SVLocus := ⟨⟨0, []⟩⟩

namespace SVLocus

/-- Shift the edge targets of one node by an offset; used when a node list is
appended behind existing slots. -/
def shiftNode (off : Nat) (n : SVLocusNode) : SVLocusNode :=
  { n with edges := n.edges.map (fun e => (e.1 + off, e.2)) }

/-- Modelled from the spec: SVLocus::copyLocus, bulk absorption — appends all
of the other locus's nodes with edges renumbered to the new slot offsets;
missing from src/. -/
def copyLocus (self other : SVLocus) : SVLocus :=
  { self with nodes := self.nodes ++ other.nodes.map (shiftNode self.nodes.length) }

/-- Modelled from the spec: SVLocus::addNode appends a new node for a
chromosome/range, with observation count 0 for a synthetic query node;
missing from src/.  Returns the updated locus and the new slot. -/
def addNode (self : SVLocus) (tid bpos epos : Int) : SVLocus × Nat :=
  ({ self with nodes := self.nodes ++ [⟨⟨tid, bpos, epos⟩, 0, []⟩] }, self.nodes.length)

/-- Insert an edge observation into an edge list, summing counts on an
existing target. -/
def edgeInsertSum (t c : Nat) : List (Nat × Nat) → List (Nat × Nat)
  | [] => [(t, c)]
  | e :: r => if e.1 = t then (e.1, e.2 + c) :: r else e :: edgeInsertSum t c r

/-- Redirect every edge aimed at slot f to aim at slot t instead, summing
counts when a t edge already exists. -/
def redirectEdges (f t : Nat) (es : List (Nat × Nat)) : List (Nat × Nat) :=
  es.foldl (fun acc e => if e.1 = f then edgeInsertSum t e.2 acc else edgeInsertSum e.1 e.2 acc) []

/-- Modelled from the spec: SVLocus::mergeNode folds the from slot's
observation count and all of its edges into the to slot (summing edge counts
with the same target) and redirects edges that pointed at the from slot;
fails when either slot does not exist; missing from src/. -/
def mergeNode (self : SVLocus) (fromIndex toIndex : Nat) : Option SVLocus :=
  match self.nodes.get? fromIndex, self.nodes.get? toIndex with
  | some fromNode, some toNode =>
    let toNode' : SVLocusNode :=
      { toNode with
        count := toNode.count + fromNode.count,
        edges := fromNode.edges.foldl (fun acc e => edgeInsertSum e.1 e.2 acc) toNode.edges }
    let nodes' := self.nodes.set toIndex toNode'
    some { self with
           nodes := nodes'.mapIdx (fun k n =>
             if k = fromIndex then n else { n with edges := redirectEdges fromIndex toIndex n.edges }) }
  | _, _ => none

/-- Renumber one edge after removal of a slot: edges at the removed slot are
dropped, edges above it shift down by one. -/
def renumberEdge (slot : Nat) (e : Nat × Nat) : Option (Nat × Nat) :=
  if e.1 = slot then none
  else if slot < e.1 then some (e.1 - 1, e.2)
  else some e

/-- Modelled from the spec: SVLocus::removeNode deletes the node at a slot and
renumbers/redirects edges that pointed at higher-numbered slots; missing from
src/. -/
def removeNode (self : SVLocus) (slot : Nat) : SVLocus :=
  { self with
    nodes := (self.nodes.eraseIdx slot).map (fun n =>
      { n with edges := n.edges.filterMap (renumberEdge slot) }) }

end SVLocus

/-- The LocusCollection state: the locus arena, the free-slot list (kept in
ascending order, as a std::set of indices), the global node index (kept in
the comparator's order, as a std::set of addresses), header metadata and the
source label. -/
structure SVLocusSet where
  header : Nat
  loci : List SVLocus
  emptyLoci : List Nat
  inodes : List NodeAddressType
  source : String
deriving DecidableEq, Repr

namespace SVLocusSet

/-- Dereference a locus slot (default: an empty locus carrying that index). -/
def getLocusD (s : SVLocusSet) (i : Nat) : SVLocus :=
  s.loci.getD i ⟨i, []⟩

/-- Dereference a node address, when it is live. -/
def nodeOf (s : SVLocusSet) (a : NodeAddressType) : Option SVLocusNode :=
  (s.loci.get? a.1).bind (fun l => l.nodes.get? a.2)

/-- The interval a node address refers to (default interval if dangling). -/
def intervalD (s : SVLocusSet) (a : NodeAddressType) : GenomeInterval :=
  ((s.nodeOf a).map (·.interval)).getD default

/-- Modelled from the spec: the NodeAddressSorter of the global index —
addresses ordered by the dereferenced interval (chromosome, then begin
position), tie-broken by address for a total order; missing from src/. -/
def nodeKeyLT (s : SVLocusSet) (a b : NodeAddressType) : Bool :=
  let ia := s.intervalD a
  let ib := s.intervalD b
  ia.tid < ib.tid || (ia.tid == ib.tid &&
    (ia.bpos < ib.bpos || (ia.bpos == ib.bpos && addrLT a b)))

/-- Ordered insertion of an address into the index (std::set::insert under
the NodeAddressSorter order; a key-equivalent element already present makes
the insert a no-op). -/
def indexInsert (s : SVLocusSet) (a : NodeAddressType) : List NodeAddressType → List NodeAddressType
  | [] => [a]
  | e :: r =>
    if s.nodeKeyLT e a then e :: indexInsert s a r
    else if s.nodeKeyLT a e then a :: e :: r
    else e :: r

/-- Write back a locus into the arena. -/
def setLocus (s : SVLocusSet) (i : Nat) (l : SVLocus) : SVLocusSet :=
  { s with loci := s.loci.set i l }

/-- Ordered insertion into the free-slot set. -/
def emptyInsert (i : Nat) : List Nat → List Nat
  | [] => [i]
  | j :: r => if j < i then j :: emptyInsert i r else if i < j then i :: j :: r else j :: r

/-- Modelled from the spec: SVLocusSet::clearLocus — empties the locus's node
arena, drops its addresses from the global index, and recycles the slot into
the free-slot set; missing from src/. -/
def clearLocus (s : SVLocusSet) (i : Nat) : SVLocusSet :=
  { s with
    loci := s.loci.set i { s.getLocusD i with nodes := [] },
    inodes := s.inodes.filter (fun a => a.1 ≠ i),
    emptyLoci := emptyInsert i s.emptyLoci }

/-- Add the index entries for freshly appended node slots
[off, off + n) of a locus (the index-maintenance notifier of the spec). -/
def indexAddRange (s : SVLocusSet) (locusIndex off n : Nat)
    (inodes : List NodeAddressType) : List NodeAddressType :=
  (List.range n).foldl (fun acc j => s.indexInsert (locusIndex, off + j) acc) inodes

/-- SVLocusSet::insertLocus (SVLocusSet.cpp lines 341-366): reuse the lowest
free slot or append a fresh one, stamp the locus index, copy the input locus
in, and (modelled from the spec) register the new node addresses in the
global index. -/
def insertLocus (s : SVLocusSet) (inputLocus : SVLocus) : Nat × SVLocusSet :=
  let pick : Nat × SVLocusSet :=
    match s.emptyLoci with
    | [] => (s.loci.length, { s with loci := s.loci ++ [⟨s.loci.length, []⟩] })
    | i :: rest => (i, { s with emptyLoci := rest })
  let locusIndex := pick.1
  let s1 := pick.2
  let base := s1.getLocusD locusIndex
  let s2 := s1.setLocus locusIndex (SVLocus.copyLocus { base with index := locusIndex } inputLocus)
  let s3 := { s2 with
    inodes := s2.indexAddRange locusIndex base.nodes.length inputLocus.nodes.length s2.inodes }
  (locusIndex, s3)

/-- The copying core of SVLocusSet::combineLoci: bulk-copy the source locus
behind the target locus's nodes and register the copied addresses in the
index. -/
def combineLociCopy (s : SVLocusSet) (fromIndex toIndex : Nat) : SVLocusSet :=
  let s1 := s.setLocus toIndex ((s.getLocusD toIndex).copyLocus (s.getLocusD fromIndex))
  { s1 with
    inodes := s1.indexAddRange toIndex (s.getLocusD toIndex).nodes.length
      (s.getLocusD fromIndex).nodes.length s1.inodes }

/-- SVLocusSet::combineLoci (SVLocusSet.cpp lines 315-337): no-op when source
and target coincide, the source slot is out of range, or the source locus is
empty; otherwise bulk-copy the source locus into the target (registering the
copied addresses in the index) and clear the source when requested. -/
def combineLoci (s : SVLocusSet) (fromIndex toIndex : Nat) (isClearSource : Bool) : SVLocusSet :=
  if fromIndex = toIndex then s
  else if s.loci.length ≤ fromIndex then s
  else if (s.getLocusD fromIndex).nodes.isEmpty then s
  else if isClearSource then (s.combineLociCopy fromIndex toIndex).clearLocus fromIndex
  else s.combineLociCopy fromIndex toIndex

/-- Scan a run of index entries outward from the search position: skip
entries of the input node's own locus, stop at the first other-locus entry
that does not intersect the input interval, collect the rest
(the forward/backward loops of SVLocusSet::getNodeIntersect,
SVLocusSet.cpp lines 231-257). -/
def scanIntersect (s : SVLocusSet) (locusIndex : Nat) (iv : GenomeInterval) :
    List NodeAddressType → List NodeAddressType
  | [] => []
  | a :: rest =>
    if a.1 = locusIndex then scanIntersect s locusIndex iv rest
    else if iv.isIntersect (s.intervalD a) then a :: scanIntersect s locusIndex iv rest
    else []

/-- SVLocusSet::getNodeIntersect (SVLocusSet.cpp lines 209-258): from the
input address's lower-bound position in the ordered index, scan forward to
the first non-intersecting other-locus neighbor and backward symmetrically,
excluding the input node's own locus.  The result is returned in index
order (the C++ accumulates into a set ordered the same way). -/
def getNodeIntersect (s : SVLocusSet) (locusIndex nodeIndex : Nat) : List NodeAddressType :=
  let inputAddy : NodeAddressType := (locusIndex, nodeIndex)
  let iv := s.intervalD inputAddy
  let before := s.inodes.takeWhile (fun e => s.nodeKeyLT e inputAddy)
  let after := s.inodes.dropWhile (fun e => s.nodeKeyLT e inputAddy)
  (scanIntersect s locusIndex iv before.reverse).reverse ++ scanIntersect s locusIndex iv after

/-- SVLocusSet::getRegionIntersect (SVLocusSet.cpp lines 262-276): insert a
synthetic one-node staging locus for the query region, run the node
intersection sweep, then clear the staging locus.  Returns the matches and
the final collection state. -/
def getRegionIntersect (s : SVLocusSet) (tid beginPos endPos : Int) :
    List NodeAddressType × SVLocusSet :=
  let ins := s.insertLocus ⟨0, []⟩
  let startLocusIndex := ins.1
  let s1 := ins.2
  let added := (s1.getLocusD startLocusIndex).addNode tid beginPos endPos
  let nodeIndex := added.2
  let s2 := s1.setLocus startLocusIndex added.1
  let s3 := { s2 with inodes := s2.indexInsert (startLocusIndex, nodeIndex) s2.inodes }
  (s3.getNodeIntersect startLocusIndex nodeIndex, s3.clearLocus startLocusIndex)

/-- SVLocusSet::moveIntersectToLowIndex (SVLocusSet.cpp lines 280-311):
pick the lowest locus id among the intersecting addresses (the first
address's id overwrites the incoming head index, later ids only lower it),
combine the previous head locus into it (clearing that source only when it
is not the staging locus), then combine every intersecting address's locus
into it (clearing those sources).  Returns the new state and the new head
locus index. -/
def moveIntersectToLowIndex (s : SVLocusSet) (intersect : List NodeAddressType)
    (startLocusIndex locusIndex : Nat) : SVLocusSet × Nat :=
  let startHeadLocusIndex := locusIndex
  let isClearSource := decide (startLocusIndex ≠ startHeadLocusIndex)
  let newIndex :=
    match intersect with
    | [] => locusIndex
    | v :: rest => rest.foldl (fun acc val => if val.1 < acc then val.1 else acc) v.1
  let s1 := s.combineLoci startHeadLocusIndex newIndex isClearSource
  let s2 := intersect.foldl (fun st val => st.combineLoci val.1 newIndex true) s1
  (s2, newIndex)

/-- The fatal errors of the merge engine (section 7 of the spec recast as
structured payloads; the C++ raises formatted PreConditionExceptions or
fails assertions at the corresponding points). -/
inductive MergeError where
  /-- Merge found no intersection for a node after a unification target was
  chosen (SVLocusSet.cpp lines 89-97); carries the offending node address,
  its interval and the head locus index. -/
  | noIntersect (addr : NodeAddressType) (interval : GenomeInterval) (headLocusIndex : Nat)
  /-- The re-queried intersection after consolidation is empty
  (assert, SVLocusSet.cpp line 111). -/
  | emptyAfterConsolidate (addr : NodeAddressType)
  /-- A re-queried intersecting address is outside the head locus
  (assert, SVLocusSet.cpp line 135). -/
  | intersectNotInHead (addr : NodeAddressType)
  /-- No intersecting node is a range superset of the input node
  (assert, SVLocusSet.cpp line 146). -/
  | noSupersetNode (addr : NodeAddressType)
  /-- mergeNodePtr: the merge target address is missing from the index
  (assert, SVLocusSet.cpp line 379). -/
  | mergeTargetMissing (toPtr : NodeAddressType)
  /-- mergeNodePtr: source and target addresses are in different loci
  (assert, SVLocusSet.cpp line 380). -/
  | mergeCrossLocus (fromPtr toPtr : NodeAddressType)
  /-- SVLocus::mergeNode on a nonexistent slot (fatal per the spec). -/
  | mergeMissingSlot (fromPtr toPtr : NodeAddressType)
deriving DecidableEq, Repr

/-- SVLocusSet::mergeNodePtr (SVLocusSet.cpp lines 370-382): requires the
target address to be present in the global index and both addresses to be in
the same locus, then folds the source node into the target node in place. -/
def mergeNodePtr (s : SVLocusSet) (fromPtr toPtr : NodeAddressType) :
    Except MergeError SVLocusSet :=
  if toPtr ∉ s.inodes then .error (.mergeTargetMissing toPtr)
  else if fromPtr.1 ≠ toPtr.1 then .error (.mergeCrossLocus fromPtr toPtr)
  else
    match (s.getLocusD fromPtr.1).mergeNode fromPtr.2 toPtr.2 with
    | none => .error (.mergeMissingSlot fromPtr toPtr)
    | some l => .ok (s.setLocus fromPtr.1 l)

/-- Modelled from the spec: SVLocusSet::removeNode, missing from src/ —
removes the node behind an address (renumbering the higher slots of its
locus) and re-synchronizes the global index entries of that locus. -/
def removeNodeAddr (s : SVLocusSet) (addr : NodeAddressType) : SVLocusSet :=
  let l := (s.getLocusD addr.1).removeNode addr.2
  let s1 := s.setLocus addr.1 l
  { s1 with
    inodes := s1.indexAddRange addr.1 0 l.nodes.length
      (s1.inodes.filter (fun a => a.1 ≠ addr.1)) }

/-- The superset search of the merge fold step (SVLocusSet.cpp lines
127-148): find the first intersecting node (in intersection order) whose
range is a superset of the input range; the remaining addresses are kept, in
order, for the fold. -/
def findSuper (s : SVLocusSet) (inputRange : GenomeInterval) :
    List NodeAddressType → Option (NodeAddressType × List NodeAddressType)
  | [] => none
  | v :: rest =>
    if (s.intervalD v).rangeSuperset inputRange then some (v, rest)
    else
      match findSuper s inputRange rest with
      | none => none
      | some p => some (p.1, v :: p.2)

/-- Insert into a list kept in descending address order. -/
def insertDesc (a : NodeAddressType) : List NodeAddressType → List NodeAddressType
  | [] => [a]
  | b :: r => if addrLT b a then a :: b :: r else b :: insertDesc a r

/-- Sort addresses in descending order (std::sort over reverse iterators,
SVLocusSet.cpp line 147). -/
def sortDesc (l : List NodeAddressType) : List NodeAddressType :=
  l.foldr insertDesc []

/-- The merge/remove pair sequence of the fold loop (SVLocusSet.cpp lines
153-166): each candidate is merged with the current target, swapping roles
first when the candidate's address is lower, so the merge always proceeds
from the higher address into the lower one; the lower address becomes the
new target.  Returns the (source, target) pairs in execution order. -/
def foldPairs (target : NodeAddressType) : List NodeAddressType → List (NodeAddressType × NodeAddressType)
  | [] => []
  | c :: rest =>
    let p : NodeAddressType × NodeAddressType := if addrLT c target then (target, c) else (c, target)
    (p.1, p.2) :: foldPairs p.2 rest

/-- The plan of the node-folding step (SVLocusSet.cpp lines 127-166): locate
the absorbing superset target among the re-queried intersecting addresses
(none means the fatal missing-superset assertion), sort the remaining
addresses in descending order and lay out the merge/remove pairs. -/
def mergeIntersectPlan (s : SVLocusSet) (inputRange : GenomeInterval)
    (intersect : List NodeAddressType) :
    Option (NodeAddressType × List (NodeAddressType × NodeAddressType)) :=
  match s.findSuper inputRange intersect with
  | none => none
  | some (inputSuperAddy, nodeIndices) =>
    some (inputSuperAddy, foldPairs inputSuperAddy (sortDesc nodeIndices))

/-- The shared tail of one visited staging node in SVLocusSet::merge
(SVLocusSet.cpp lines 105-166): consolidate the intersecting loci into the
lowest index, re-query the intersection, check it is non-empty and entirely
inside the head locus, then fold every remaining intersecting node into the
superset target, highest address first, removing each merged-away node. -/
def mergeNodeJoin (startLocusIndex nodeIndex : Nat) (s : SVLocusSet)
    (headLocusIndex : Nat) (intersect : List NodeAddressType) :
    Except MergeError (SVLocusSet × Nat) := do
  let moved := s.moveIntersectToLowIndex intersect startLocusIndex headLocusIndex
  let s1 := moved.1
  let headLocusIndex := moved.2
  let intersect2 := s1.getNodeIntersect startLocusIndex nodeIndex
  if intersect2.isEmpty then
    throw (.emptyAfterConsolidate (startLocusIndex, nodeIndex))
  else if intersect2.any (fun v => v.1 ≠ headLocusIndex) then
    throw (.intersectNotInHead (startLocusIndex, nodeIndex))
  else
    let inputRange := s1.intervalD (startLocusIndex, nodeIndex)
    match s1.mergeIntersectPlan inputRange intersect2 with
    | none => throw (.noSupersetNode (startLocusIndex, nodeIndex))
    | some (_, pairs) =>
      let s2 ← pairs.foldlM (fun st p => do
        let st1 ← mergeNodePtr st p.1 p.2
        return st1.removeNodeAddr p.1) s1
      return (s2, headLocusIndex)

/-- One visited staging node of SVLocusSet::merge (SVLocusSet.cpp lines
72-167): query the intersection; with a unification target already chosen an
empty intersection is fatal and a singleton intersection is accepted
unchanged; with no target chosen yet an empty intersection skips the node;
otherwise run the consolidation and folding tail. -/
def mergeNodeVisit (startLocusIndex : Nat) (st : SVLocusSet × Nat) (nodeIndex : Nat) :
    Except MergeError (SVLocusSet × Nat) :=
  let s := st.1
  let headLocusIndex := st.2
  let intersect := s.getNodeIntersect startLocusIndex nodeIndex
  if headLocusIndex ≠ startLocusIndex then
    if intersect.isEmpty then
      .error (.noIntersect (startLocusIndex, nodeIndex)
        (s.intervalD (startLocusIndex, nodeIndex)) headLocusIndex)
    else if intersect.length = 1 then .ok (s, headLocusIndex)
    else mergeNodeJoin startLocusIndex nodeIndex s headLocusIndex intersect
  else
    if intersect.isEmpty then .ok (s, headLocusIndex)
    else mergeNodeJoin startLocusIndex nodeIndex s headLocusIndex intersect

/-- Insert an (interval, node slot) pair into the visitation map keyed by
interval; a duplicate interval key keeps the existing entry
(std::map::insert semantics, SVLocusSet.cpp line 68). -/
def mapInsert (p : GenomeInterval × Nat) :
    List (GenomeInterval × Nat) → List (GenomeInterval × Nat)
  | [] => [p]
  | q :: r =>
    if q.1.lt p.1 then q :: mapInsert p r
    else if p.1.lt q.1 then p :: q :: r
    else q :: r

/-- The visitation map of SVLocusSet::merge (SVLocusSet.cpp lines 62-70):
staging nodes ordered by interval so the non-general overlap test is applied
in ascending genomic order. -/
def buildNodeMap (l : SVLocus) : List (GenomeInterval × Nat) :=
  (List.range l.nodes.length).foldl
    (fun m i => mapInsert ((l.nodes.getD i default).interval, i) m) []

/-- SVLocusSet::merge over a single input locus (SVLocusSet.cpp lines
42-181): stage the input locus, visit its nodes in ascending interval order,
merge each into the existing graph, and finally clear the staging locus
unless it became the unification target itself. -/
def merge (s : SVLocusSet) (inputLocus : SVLocus) : Except MergeError SVLocusSet := do
  let ins := s.insertLocus inputLocus
  let startLocusIndex := ins.1
  let s1 := ins.2
  let nodeMap := buildNodeMap (s1.getLocusD startLocusIndex)
  let res ← nodeMap.foldlM (fun st p => mergeNodeVisit startLocusIndex st p.2)
    (s1, startLocusIndex)
  let s2 := res.1
  let headLocusIndex := res.2
  if startLocusIndex ≠ headLocusIndex then
    return s2.clearLocus startLocusIndex
  else
    return s2

/-- The batch-merge failure wrapper: the source label of the input
collection, the failing locus's own index, and the underlying error
(SVLocusSet.cpp lines 197-203). -/
structure SetMergeError where
  source : String
  locusIndex : Nat
  err : MergeError
deriving DecidableEq, Repr

/-- The sequential core of the batch merge: merge each locus in turn,
wrapping the first failure with the input collection's source label and the
failing locus's index, then aborting. -/
def mergeLoci (src : String) (s : SVLocusSet) :
    List SVLocus → Except SetMergeError SVLocusSet
  | [] => .ok s
  | l :: rest =>
    match s.merge l with
    | .ok s1 => mergeLoci src s1 rest
    | .error e => .error ⟨src, l.index, e⟩

/-- SVLocusSet::merge over another whole collection (SVLocusSet.cpp lines
185-205). -/
def mergeSet (s inputSet : SVLocusSet) : Except SetMergeError SVLocusSet :=
  mergeLoci inputSet.source s inputSet.loci

/-- The plain unwrapped sequencing of single-locus merges, used to state
what the batch merge does. -/
def mergeAll (s : SVLocusSet) : List SVLocus → Except MergeError SVLocusSet
  | [] => .ok s
  | l :: rest =>
    match s.merge l with
    | .ok s1 => mergeAll s1 rest
    | .error e => .error e

/-- The fatal conditions detected by SVLocusSet::checkState
(SVLocusSet.cpp lines 572-648), as structured payloads. -/
inductive CheckError where
  /-- A real node has no entry in the global index
  (SVLocusSet.cpp lines 590-596). -/
  | missingFromIndex (addr : NodeAddressType)
  /-- The total live node count differs from the index size
  (SVLocusSet.cpp lines 609-615). -/
  | countMismatch (totalNodeCount inodeSize : Nat)
  /-- A zero-length or negative indexed interval
  (assert, SVLocusSet.cpp line 627). -/
  | badInterval (addr : NodeAddressType) (interval : GenomeInterval)
  /-- Two adjacent index entries on the same chromosome overlap
  (SVLocusSet.cpp lines 634-643). -/
  | overlappingNodes (lastAddr addr : NodeAddressType)
      (lastInterval interval : GenomeInterval)
deriving DecidableEq, Repr

/-- The per-locus sweep of checkState: the first real node address with no
matching entry in the global index, scanning loci in order. -/
def firstMissingAux (inodes : List NodeAddressType) :
    Nat → List SVLocus → Option NodeAddressType
  | _, [] => none
  | i, l :: rest =>
    match (List.range l.nodes.length).find? (fun j => decide (((i, j) : NodeAddressType) ∉ inodes)) with
    | some j => some (i, j)
    | none => firstMissingAux inodes (i + 1) rest

/-- First index-membership failure over the whole collection. -/
def firstMissing (s : SVLocusSet) : Option NodeAddressType :=
  firstMissingAux s.inodes 0 s.loci

/-- Total live node count across all loci. -/
def totalNodeCount (s : SVLocusSet) : Nat :=
  (s.loci.map (fun l => l.nodes.length)).sum

/-- The overlap walk of checkState (SVLocusSet.cpp lines 619-647): visit the
index entries in stored order, reject any zero/negative-length interval, and
reject an entry whose range starts before the previous same-chromosome
entry's range ends. -/
def overlapWalk (s : SVLocusSet) :
    Option (NodeAddressType × GenomeInterval) → List NodeAddressType → Option CheckError
  | _, [] => none
  | last, a :: rest =>
    let iv := s.intervalD a
    if ¬ (iv.bpos < iv.epos) then some (.badInterval a iv)
    else
      match last with
      | some (lastAddy, lastInterval) =>
        if lastInterval.tid = iv.tid ∧ iv.bpos < lastInterval.epos then
          some (.overlappingNodes lastAddy a lastInterval iv)
        else overlapWalk s (some (a, iv)) rest
      | none => overlapWalk s (some (a, iv)) rest

/-- SVLocusSet::checkState (SVLocusSet.cpp lines 572-648): every real node
must have a matching index entry, the total node count must equal the index
size, and (when overlap checking is requested) the index walk must find only
positive-length, same-chromosome non-overlapping adjacent entries.
The per-locus SVLocus::checkState call is outside src/ and the spec ascribes
no conditions to it, so it is not modelled; the conflicting-index-number
branch (lines 597-604) is unreachable because an index entry found by
address always carries that exact address. -/
def checkState (s : SVLocusSet) (isCheckOverlap : Bool) : Except CheckError Unit :=
  match s.firstMissing with
  | some a => .error (.missingFromIndex a)
  | none =>
    if s.totalNodeCount ≠ s.inodes.length then
      .error (.countMismatch s.totalNodeCount s.inodes.length)
    else if ¬ isCheckOverlap then .ok ()
    else
      match s.overlapWalk none s.inodes with
      | some e => .error e
      | none => .ok ()

/-- SVLocusSet::save (SVLocusSet.cpp lines 482-498): the header record
followed by every non-empty locus, in locus-id order (the binary framing of
the serialization library is abstracted to the record sequence itself). -/
def save (s : SVLocusSet) : Nat × List SVLocus :=
  (s.header, s.loci.filter (fun l => ¬ l.nodes.isEmpty))

/-- SVLocusSet::reconstructIndex (SVLocusSet.cpp lines 536-554): rebuild the
global index and the free-slot set from scratch from the node storage. -/
def reconstructIndex (s : SVLocusSet) : SVLocusSet :=
  { s with
    inodes :=
      ((List.range s.loci.length).flatMap (fun i =>
        (List.range ((s.getLocusD i).nodes.length)).map (fun j => ((i, j) : NodeAddressType)))).foldl
        (fun acc a => s.indexInsert a acc) [],
    emptyLoci := (List.range s.loci.length).filter (fun i => (s.getLocusD i).nodes.isEmpty) }

/-- Stamp sequential locus ids, in order, starting at a given id. -/
def relabelLoci (i : Nat) : List SVLocus → List SVLocus
  | [] => []
  | l :: rest => { l with index := i } :: relabelLoci (i + 1) rest

/-- SVLocusSet::load (SVLocusSet.cpp lines 502-532): start from a cleared
collection, take the source label from the file name, read the header, read
locus records until the stream ends, discard any locus that decodes empty,
assign fresh sequential locus ids, rebuild the index from scratch and run
checkState with overlap checking. -/
def load (filename : String) (data : Nat × List SVLocus) :
    Except CheckError SVLocusSet :=
  let s0 : SVLocusSet :=
    { header := data.1,
      loci := relabelLoci 0 (data.2.filter (fun l => ¬ l.nodes.isEmpty)),
      emptyLoci := [],
      inodes := [],
      source := filename }
  let s1 := s0.reconstructIndex
  match s1.checkState true with
  | .ok _ => .ok s1
  | .error e => .error e

/-- A node address that dereferences to a real node. -/
def liveAddr (s : SVLocusSet) (a : NodeAddressType) : Prop :=
  (s.nodeOf a).isSome = true

/-- The global index is in its comparator order (in C++ this holds by
construction, the index being a std::set over NodeAddressSorter). -/
def indexSorted (s : SVLocusSet) : Prop :=
  s.inodes.Pairwise (fun a b => s.nodeKeyLT a b = true)

/-- Every indexed interval has positive length. -/
def indexPositive (s : SVLocusSet) : Prop :=
  ∀ a ∈ s.inodes, (s.intervalD a).bpos < (s.intervalD a).epos

/-- No two distinct index entries outside a given locus intersect. -/
def indexNonOverlapAt (s : SVLocusSet) (locusIndex : Nat) : Prop :=
  ∀ a ∈ s.inodes, ∀ b ∈ s.inodes, a ≠ b → a.1 ≠ locusIndex → b.1 ≠ locusIndex →
    (s.intervalD a).isIntersect (s.intervalD b) = false

/-- No two distinct index entries intersect (spec invariant 2). -/
def indexNonOverlap (s : SVLocusSet) : Prop :=
  ∀ a ∈ s.inodes, ∀ b ∈ s.inodes, a ≠ b →
    (s.intervalD a).isIntersect (s.intervalD b) = false

/-- Every locus carries its own slot as index. -/
def lociIndexed (s : SVLocusSet) : Prop :=
  ∀ i, i < s.loci.length → (s.getLocusD i).index = i

/-- The free-slot set is an ordered set of in-range, empty locus slots
(spec invariant 4). -/
def emptyLociOK (s : SVLocusSet) : Prop :=
  s.emptyLoci.Pairwise (· < ·) ∧
  ∀ i ∈ s.emptyLoci, i < s.loci.length ∧ (s.getLocusD i).nodes = []

/-- The global index holds exactly the live node addresses
(spec invariant 1). -/
def indexComplete (s : SVLocusSet) : Prop :=
  ∀ a, a ∈ s.inodes ↔ liveAddr s a

/-- Every index entry dereferences to a real node. -/
def indexLive (s : SVLocusSet) : Prop :=
  ∀ a ∈ s.inodes, liveAddr s a

/-- Every real node has its address in the global index
(the covering half of spec invariant 1, in a bounded form). -/
def indexCovers (s : SVLocusSet) : Prop :=
  ∀ i, i < s.loci.length → ∀ j, j < (s.getLocusD i).nodes.length →
    ((i, j) : NodeAddressType) ∈ s.inodes

/-- The collection invariants that hold after every completed merge and
after load (section 3 of the spec). -/
def wellFormed (s : SVLocusSet) : Prop :=
  indexSorted s ∧ indexPositive s ∧ indexNonOverlap s ∧ indexComplete s ∧
  lociIndexed s ∧ emptyLociOK s

/-- All node intervals of the collection, in storage order. -/
def nodesIntervals (s : SVLocusSet) : List GenomeInterval :=
  s.loci.flatMap (fun l => l.nodes.map (fun n => n.interval))

/-- The overlap test the checkState walk applies to one adjacent pair:
previous and current entry share the chromosome and the current entry
begins before the previous one ends (SVLocusSet.cpp lines 634-636). -/
def walkPairBad (s : SVLocusSet) (p a : NodeAddressType) : Prop :=
  (s.intervalD p).tid = (s.intervalD a).tid ∧
  (s.intervalD a).bpos < (s.intervalD p).epos

/-- All adjacent pairs of the walk pass the overlap test, starting from an
optional previous entry. -/
def walkPairsOk (s : SVLocusSet) : Option NodeAddressType → List NodeAddressType → Prop
  | _, [] => True
  | none, a :: r => walkPairsOk s (some a) r
  | some p, a :: r => ¬ s.walkPairBad p a ∧ walkPairsOk s (some a) r

end SVLocusSet

/-! Concrete collections used as counterexamples and witnesses. -/

/-- The empty collection. -/
def emptyCollection : SVLocusSet := ⟨0, [], [], [], ""⟩

/-- An input locus whose own two nodes overlap each other (a connected
two-node evidence graph). -/
def selfOverlapLocus : SVLocus :=
  ⟨0, [⟨⟨0, 100, 200⟩, 1, [(1, 1)]⟩, ⟨⟨0, 150, 250⟩, 1, [(0, 1)]⟩]⟩

/-- A consistent two-locus collection: locus 0 holds a node over
chr0:[0,10), locus 1 a staging node over chr0:[5,15); the index holds both
addresses in position order. -/
def twoLocusState : SVLocusSet :=
  ⟨0, [⟨0, [⟨⟨0, 0, 10⟩, 1, []⟩]⟩, ⟨1, [⟨⟨0, 5, 15⟩, 1, []⟩]⟩], [],
    [(0, 0), (1, 0)], ""⟩

/-- A collection with one two-node locus used to exercise mergeNodePtr. -/
def oneLocusTwoNodeState : SVLocusSet :=
  ⟨0, [⟨0, [⟨⟨0, 0, 10⟩, 1, []⟩, ⟨⟨0, 20, 30⟩, 1, []⟩]⟩], [],
    [(0, 0), (0, 1)], ""⟩

/-- A mid-merge collection for the consolidation step: locus 0 is the
existing merged region, locus 1 the staging locus, locus 2 a separate
existing locus whose node the staging node intersects. -/
def consolidationState : SVLocusSet :=
  ⟨0, [⟨0, [⟨⟨0, 0, 30⟩, 3, []⟩]⟩, ⟨1, [⟨⟨0, 45, 48⟩, 1, []⟩]⟩,
       ⟨2, [⟨⟨0, 40, 50⟩, 1, []⟩]⟩], [], [(0, 0), (2, 0), (1, 0)], ""⟩

/-- A position-sorted collection whose other-locus entries overlap each
other: locus 0 holds chr0:[0,100), locus 1 holds chr0:[40,50), locus 2 the
input node chr0:[60,70). -/
def overlappingIndexState : SVLocusSet :=
  ⟨0, [⟨0, [⟨⟨0, 0, 100⟩, 1, []⟩]⟩, ⟨1, [⟨⟨0, 40, 50⟩, 1, []⟩]⟩,
       ⟨2, [⟨⟨0, 60, 70⟩, 1, []⟩]⟩], [], [(0, 0), (1, 0), (2, 0)], ""⟩

/-- A mid-merge collection right after consolidation: head locus 0 holds the
pre-existing node chr0:[100,300) and the staged copy chr0:[150,200); the
staging locus 1 still holds the original input node chr0:[150,200). -/
def twoSupersetState : SVLocusSet :=
  ⟨0, [⟨0, [⟨⟨0, 100, 300⟩, 1, []⟩, ⟨⟨0, 150, 200⟩, 1, []⟩]⟩,
       ⟨1, [⟨⟨0, 150, 200⟩, 1, []⟩]⟩], [], [(0, 0), (0, 1), (1, 0)], ""⟩

/-- A collection whose index holds two overlapping entries of one locus
(the state the merge bug of the self-overlapping input produces). -/
def overlappingPairState : SVLocusSet :=
  ⟨0, [⟨0, [⟨⟨0, 0, 10⟩, 1, []⟩, ⟨⟨0, 5, 15⟩, 1, []⟩]⟩], [],
    [(0, 0), (0, 1)], ""⟩

/-- A consistent, well-formed two-node collection over disjoint regions. -/
def disjointTwoLocusState : SVLocusSet :=
  ⟨0, [⟨0, [⟨⟨0, 0, 10⟩, 1, []⟩]⟩, ⟨1, [⟨⟨0, 20, 30⟩, 1, []⟩]⟩], [],
    [(0, 0), (1, 0)], ""⟩

/-- The staged state getRegionIntersect builds when it reuses free slot k:
the synthetic one-node query locus sits in slot k and its address (k, 0) is
registered in the global index. -/
def stagedQuery (s : SVLocusSet) (tid b e : Int) (k : Nat) (rest : List Nat) :
    SVLocusSet :=
  SVLocusSet.mk s.header (s.loci.set k ⟨k, [⟨⟨tid, b, e⟩, 0, []⟩]⟩) rest
    (SVLocusSet.indexInsert
      (SVLocusSet.mk s.header (s.loci.set k ⟨k, [⟨⟨tid, b, e⟩, 0, []⟩]⟩) rest
        s.inodes s.source)
      (k, 0) s.inodes) s.source

/-- A consistent one-node collection with a recycled free slot available for
region queries. -/
def regionQueryState : SVLocusSet :=
  ⟨0, [⟨0, [⟨⟨0, 0, 10⟩, 1, []⟩]⟩, ⟨1, []⟩], [1], [(0, 0)], ""⟩

/-- The interval stored at a node address of a locus list, when the address
is live. -/
def nodeAtL (L : List SVLocus) (a : NodeAddressType) : Option GenomeInterval :=
  ((L.get? a.1).bind (fun l => l.nodes.get? a.2)).map (fun n => n.interval)

/-- Every stored node interval of a locus list has positive length (a pure
node-storage condition, independent of the index). -/
def lociPositive (L : List SVLocus) : Prop :=
  ∀ i, i < L.length → ∀ j, j < (L.getD i ⟨0, []⟩).nodes.length →
    ((L.getD i ⟨0, []⟩).nodes.getD j default).interval.bpos <
      ((L.getD i ⟨0, []⟩).nodes.getD j default).interval.epos

/-- No two distinct stored nodes of a locus list have intersecting intervals
(a pure node-storage condition, independent of the index). -/
def lociNonOverlap (L : List SVLocus) : Prop :=
  ∀ i, i < L.length → ∀ j, j < (L.getD i ⟨0, []⟩).nodes.length →
  ∀ i2, i2 < L.length → ∀ j2, j2 < (L.getD i2 ⟨0, []⟩).nodes.length →
    (((i, j) : NodeAddressType) = (i2, j2) ∨
      ((L.getD i ⟨0, []⟩).nodes.getD j default).interval.isIntersect
        ((L.getD i2 ⟨0, []⟩).nodes.getD j2 default).interval = false)


/-- The distribution invariant of the combine fold: relative to a reference
collection, every node of a non-chosen locus is either still in place or
already copied (edge-shifted) into the chosen locus. -/
def combineInv (s0 : SVLocusSet) (chosen : Nat) (st : SVLocusSet) : Prop :=
  ∀ w, w ≠ chosen → ∀ nd ∈ (s0.getLocusD w).nodes,
    nd ∈ (st.getLocusD w).nodes ∨
    ∃ k, SVLocus.shiftNode k nd ∈ (st.getLocusD chosen).nodes

/-! Basic facts about the address and key orders. -/

theorem addrLT_iff (a b : NodeAddressType) :
    addrLT a b = true ↔ (a.1 < b.1 ∨ (a.1 = b.1 ∧ a.2 < b.2)) := by
  simp [addrLT]

theorem addrLT_irrefl (a : NodeAddressType) : addrLT a a = false := by
  simp [addrLT]

theorem addrLT_trans (a b c : NodeAddressType)
    (h1 : addrLT a b = true) (h2 : addrLT b c = true) : addrLT a c = true := by
  rw [addrLT_iff] at h1 h2 ⊢
  omega

theorem addrLT_total (a b : NodeAddressType) (h : a ≠ b) :
    addrLT a b = true ∨ addrLT b a = true := by
  rw [addrLT_iff, addrLT_iff]
  rcases a with ⟨a1, a2⟩
  rcases b with ⟨b1, b2⟩
  by_cases h1 : a1 = b1
  · subst h1
    have h2 : a2 ≠ b2 := fun hh => h (by rw [hh])
    omega
  · omega

theorem nodeKeyLT_iff (s : SVLocusSet) (a b : NodeAddressType) :
    s.nodeKeyLT a b = true ↔
      ((s.intervalD a).tid < (s.intervalD b).tid ∨
       ((s.intervalD a).tid = (s.intervalD b).tid ∧
        ((s.intervalD a).bpos < (s.intervalD b).bpos ∨
         ((s.intervalD a).bpos = (s.intervalD b).bpos ∧ addrLT a b = true)))) := by
  simp [SVLocusSet.nodeKeyLT]

theorem nodeKeyLT_irrefl (s : SVLocusSet) (a : NodeAddressType) :
    s.nodeKeyLT a a = false := by
  simp [SVLocusSet.nodeKeyLT, addrLT]

theorem nodeKeyLT_trans (s : SVLocusSet) (a b c : NodeAddressType)
    (h1 : s.nodeKeyLT a b = true) (h2 : s.nodeKeyLT b c = true) :
    s.nodeKeyLT a c = true := by
  rw [nodeKeyLT_iff] at h1 h2 ⊢
  rw [addrLT_iff] at h1 h2 ⊢
  omega

theorem nodeKeyLT_total (s : SVLocusSet) (a b : NodeAddressType) (h : a ≠ b) :
    s.nodeKeyLT a b = true ∨ s.nodeKeyLT b a = true := by
  have h' := addrLT_total a b h
  rw [nodeKeyLT_iff, nodeKeyLT_iff, addrLT_iff, addrLT_iff]
  rw [addrLT_iff, addrLT_iff] at h'
  omega

theorem nodeKeyLT_asymm_eq (s : SVLocusSet) (a b : NodeAddressType)
    (h1 : s.nodeKeyLT a b = false) (h2 : s.nodeKeyLT b a = false) : a = b := by
  by_contra hne
  rcases nodeKeyLT_total s a b hne with h | h
  · rw [h] at h1; simp at h1
  · rw [h] at h2; simp at h2

theorem isIntersect_iff (a b : GenomeInterval) :
    a.isIntersect b = true ↔ (a.tid = b.tid ∧ a.bpos < b.epos ∧ b.bpos < a.epos) := by
  simp [GenomeInterval.isIntersect, and_assoc]

theorem isIntersect_comm (a b : GenomeInterval) :
    a.isIntersect b = b.isIntersect a := by
  rw [Bool.eq_iff_iff, isIntersect_iff, isIntersect_iff]
  omega

/-! C1: the no-overlap invariant after merge.  Merging a connected input
locus whose own two nodes overlap each other completes without error, yet
leaves two overlapping entries in the global index, so the condition
verified by checkState(true) fails afterwards. -/

/-- C1: counter-evidence for the unconditional no-overlap invariant: from
the empty collection, merging the self-overlapping two-node input locus
succeeds, and checkState(true) on the result detects overlapping index
entries — the code violates the invariant its own debug assertion
(checkState(true) at the end of merge under DEBUG_SVL) demands. -/
theorem merge_self_overlap_breaks_invariant :
    (emptyCollection.merge selfOverlapLocus).map
      (fun s' => (s'.checkState true).isOk) = Except.ok false := by
  rfl

/-! C10: mergeNodePtr requires an indexed target and equal loci. -/

/-- C10: a successful mergeNodePtr call requires the destination address to
be present in the global index and both addresses to refer to the same
locus; hence every node-into-node merge the merge algorithm performs is
intra-locus. -/
theorem mergeNodePtr_intra_locus (s : SVLocusSet) (fromPtr toPtr : NodeAddressType)
    (h : (s.mergeNodePtr fromPtr toPtr).isOk = true) :
    fromPtr.1 = toPtr.1 ∧ toPtr ∈ s.inodes := by
  by_cases hmem : toPtr ∈ s.inodes
  · by_cases heq : fromPtr.1 = toPtr.1
    · exact ⟨heq, hmem⟩
    · simp [SVLocusSet.mergeNodePtr, hmem, heq, Except.isOk, Except.toBool] at h
  · simp [SVLocusSet.mergeNodePtr, hmem, Except.isOk, Except.toBool] at h

/-- Witness for C10: a concrete successful intra-locus merge. -/
theorem mergeNodePtr_intra_locus_witness :
    ((0 : Nat), (1 : Nat)).1 = ((0 : Nat), (0 : Nat)).1 ∧
      ((0, 0) : NodeAddressType) ∈ oneLocusTwoNodeState.inodes := by
  have h := mergeNodePtr_intra_locus oneLocusTwoNodeState (0, 1) (0, 0)
  exact h (by decide)

/-! C2: the per-node decision policy of merge. -/

/-- C2: for one visited staging node, (1) with no unification target chosen
yet (head = start) an empty other-locus intersection skips the node with no
state change; (2) with a target chosen (head differs from start) an empty
intersection raises the fatal error carrying the offending node address and
interval; (3) with a target chosen, a singleton intersection is accepted
with no state change. -/
theorem mergeNodeVisit_decision (startLocusIndex nodeIndex : Nat)
    (s : SVLocusSet) (head : Nat) :
    (head = startLocusIndex →
      s.getNodeIntersect startLocusIndex nodeIndex = [] →
      SVLocusSet.mergeNodeVisit startLocusIndex (s, head) nodeIndex = .ok (s, head)) ∧
    (head ≠ startLocusIndex →
      s.getNodeIntersect startLocusIndex nodeIndex = [] →
      SVLocusSet.mergeNodeVisit startLocusIndex (s, head) nodeIndex =
        .error (.noIntersect (startLocusIndex, nodeIndex)
          (s.intervalD (startLocusIndex, nodeIndex)) head)) ∧
    (head ≠ startLocusIndex →
      (s.getNodeIntersect startLocusIndex nodeIndex).length = 1 →
      SVLocusSet.mergeNodeVisit startLocusIndex (s, head) nodeIndex = .ok (s, head)) := by
  refine ⟨?_, ?_, ?_⟩
  · intro h1 h2
    simp [SVLocusSet.mergeNodeVisit, h1, h2]
  · intro h1 h2
    simp [SVLocusSet.mergeNodeVisit, h1, h2]
  · intro h1 h2
    have h2' : ¬ (s.getNodeIntersect startLocusIndex nodeIndex).isEmpty = true := by
      intro hh
      rw [List.isEmpty_iff] at hh
      rw [hh] at h2
      simp at h2
    simp [SVLocusSet.mergeNodeVisit, h1, h2, h2']

/-- Witness for C2: the three decision branches at concrete inputs — the
empty collection for the skip and fatal branches, and a two-locus collection
whose staging node intersects exactly one other-locus node for the accept
branch. -/
theorem mergeNodeVisit_decision_witness :
    (SVLocusSet.mergeNodeVisit 0 (emptyCollection, 0) 0 = .ok (emptyCollection, 0)) ∧
    (SVLocusSet.mergeNodeVisit 0 (emptyCollection, 1) 0 =
      .error (.noIntersect (0, 0) (emptyCollection.intervalD (0, 0)) 1)) ∧
    (SVLocusSet.mergeNodeVisit 1 (twoLocusState, 0) 0 = .ok (twoLocusState, 0)) := by
  refine ⟨?_, ?_, ?_⟩
  · exact (mergeNodeVisit_decision 0 0 emptyCollection 0).1 rfl (by decide)
  · exact (mergeNodeVisit_decision 0 0 emptyCollection 1).2.1 (by decide) (by decide)
  · exact (mergeNodeVisit_decision 1 0 twoLocusState 0).2.2 (by decide) (by decide)

/-! C8: the batch merge applies the single-locus merge sequentially and
aborts on the first failure, wrapping it with the source label and the
failing locus's index. -/

theorem mergeLoci_cases (src : String) (ls : List SVLocus) :
    ∀ s : SVLocusSet,
    (∃ s', SVLocusSet.mergeLoci src s ls = .ok s' ∧
           SVLocusSet.mergeAll s ls = .ok s') ∨
    (∃ pre l post sp e,
      ls = pre ++ l :: post ∧
      SVLocusSet.mergeAll s pre = .ok sp ∧
      sp.merge l = .error e ∧
      SVLocusSet.mergeLoci src s ls = .error ⟨src, l.index, e⟩) := by
  induction ls with
  | nil =>
    intro s
    exact Or.inl ⟨s, rfl, rfl⟩
  | cons l rest ih =>
    intro s
    cases hm : s.merge l with
    | error e =>
      refine Or.inr ⟨[], l, rest, s, e, rfl, rfl, hm, ?_⟩
      simp [SVLocusSet.mergeLoci, hm]
    | ok s1 =>
      rcases ih s1 with ⟨s', h1, h2⟩ | ⟨pre, l', post, sp, e, hls, hall, herr, hres⟩
      · refine Or.inl ⟨s', ?_, ?_⟩
        · simp [SVLocusSet.mergeLoci, hm, h1]
        · simp [SVLocusSet.mergeAll, hm, h2]
      · refine Or.inr ⟨l :: pre, l', post, sp, e, by rw [hls]; rfl, ?_, herr, ?_⟩
        · simp [SVLocusSet.mergeAll, hm, hall]
        · simp [SVLocusSet.mergeLoci, hm, hres]

/-- C8: the batch merge over another collection either merges every locus of
the input collection in sequence and succeeds, or stops at the first locus
whose single-locus merge fails, reporting the input collection's source
label together with that locus's index and the underlying error — no
partial-success suppression. -/
theorem mergeSet_first_failure (s inputSet : SVLocusSet) :
    (∃ s', s.mergeSet inputSet = .ok s' ∧
           SVLocusSet.mergeAll s inputSet.loci = .ok s') ∨
    (∃ pre l post sp e,
      inputSet.loci = pre ++ l :: post ∧
      SVLocusSet.mergeAll s pre = .ok sp ∧
      sp.merge l = .error e ∧
      s.mergeSet inputSet = .error ⟨inputSet.source, l.index, e⟩) :=
  mergeLoci_cases inputSet.source inputSet.loci s

/-! Basic facts about locus access and update. -/

theorem getLocusD_eq (s : SVLocusSet) (i : Nat) :
    s.getLocusD i = (s.loci[i]?).getD ⟨i, []⟩ :=
  List.getD_eq_getElem?_getD _ _ _

theorem getLocusD_of_length_le (s : SVLocusSet) (i : Nat) (h : s.loci.length ≤ i) :
    s.getLocusD i = ⟨i, []⟩ := by
  rw [getLocusD_eq, List.getElem?_eq_none h]
  rfl

theorem setLocus_length (s : SVLocusSet) (i : Nat) (l : SVLocus) :
    (s.setLocus i l).loci.length = s.loci.length :=
  List.length_set _ _ _

theorem clearLocus_length (s : SVLocusSet) (i : Nat) :
    (s.clearLocus i).loci.length = s.loci.length :=
  List.length_set _ _ _

theorem setLocus_getLocusD_ne (s : SVLocusSet) (i j : Nat) (l : SVLocus) (h : j ≠ i) :
    (s.setLocus i l).getLocusD j = s.getLocusD j := by
  rw [getLocusD_eq, getLocusD_eq]
  show ((s.loci.set i l)[j]?).getD ⟨j, []⟩ = (s.loci[j]?).getD ⟨j, []⟩
  rw [List.getElem?_set_ne (Ne.symm h)]

theorem setLocus_getLocusD_self (s : SVLocusSet) (i : Nat) (l : SVLocus)
    (h : i < s.loci.length) : (s.setLocus i l).getLocusD i = l := by
  rw [getLocusD_eq]
  show ((s.loci.set i l)[i]?).getD ⟨i, []⟩ = l
  rw [List.getElem?_set_eq_of_lt l h]
  rfl

theorem clearLocus_getLocusD_ne (s : SVLocusSet) (i j : Nat) (h : j ≠ i) :
    (s.clearLocus i).getLocusD j = s.getLocusD j := by
  rw [getLocusD_eq, getLocusD_eq]
  show ((s.loci.set i _)[j]?).getD ⟨j, []⟩ = (s.loci[j]?).getD ⟨j, []⟩
  rw [List.getElem?_set_ne (Ne.symm h)]

theorem clearLocus_getLocusD_nodes (s : SVLocusSet) (i : Nat) :
    ((s.clearLocus i).getLocusD i).nodes = [] := by
  by_cases h : i < s.loci.length
  · rw [getLocusD_eq]
    show (((s.loci.set i { s.getLocusD i with nodes := [] })[i]?).getD ⟨i, []⟩).nodes = []
    rw [List.getElem?_set_eq_of_lt _ h]
    rfl
  · have h' : s.loci.length ≤ i := by omega
    rw [getLocusD_eq]
    show (((s.loci.set i _)[i]?).getD ⟨i, []⟩).nodes = []
    rw [List.set_eq_of_length_le h', List.getElem?_eq_none h']
    rfl

theorem shiftNode_zero (n : SVLocusNode) : SVLocus.shiftNode 0 n = n := by
  rcases n with ⟨iv, c, es⟩
  simp [SVLocus.shiftNode]

/-! Behavior of combineLoci on the locus arena. -/

theorem combineLociCopy_loci (s : SVLocusSet) (f t : Nat) :
    (s.combineLociCopy f t).loci =
      s.loci.set t ((s.getLocusD t).copyLocus (s.getLocusD f)) := rfl

theorem combineLociCopy_length (s : SVLocusSet) (f t : Nat) :
    (s.combineLociCopy f t).loci.length = s.loci.length := by
  rw [combineLociCopy_loci]
  exact List.length_set _ _ _

theorem getLocusD_congr_loci (s1 s2 : SVLocusSet) (i : Nat) (h : s1.loci = s2.loci) :
    s1.getLocusD i = s2.getLocusD i := by
  rw [getLocusD_eq, getLocusD_eq, h]

theorem combineLociCopy_getLocusD_ne (s : SVLocusSet) (f t w : Nat) (h : w ≠ t) :
    (s.combineLociCopy f t).getLocusD w = s.getLocusD w := by
  rw [getLocusD_eq, getLocusD_eq, combineLociCopy_loci,
    List.getElem?_set_ne (Ne.symm h)]

theorem combineLociCopy_getLocusD_self (s : SVLocusSet) (f t : Nat)
    (h : t < s.loci.length) :
    (s.combineLociCopy f t).getLocusD t =
      (s.getLocusD t).copyLocus (s.getLocusD f) := by
  rw [getLocusD_eq, combineLociCopy_loci, List.getElem?_set_eq_of_lt _ h]
  rfl

theorem combineLoci_length (s : SVLocusSet) (f t : Nat) (c : Bool) :
    (s.combineLoci f t c).loci.length = s.loci.length := by
  unfold SVLocusSet.combineLoci
  split_ifs <;> try rfl
  · rw [clearLocus_length, combineLociCopy_length]
  · rw [combineLociCopy_length]

theorem combineLoci_getLocusD_ne (s : SVLocusSet) (f t w : Nat) (c : Bool)
    (hwt : w ≠ t) (hwf : w ≠ f) :
    (s.combineLoci f t c).getLocusD w = s.getLocusD w := by
  unfold SVLocusSet.combineLoci
  split_ifs <;> try rfl
  · rw [clearLocus_getLocusD_ne _ _ _ hwf, combineLociCopy_getLocusD_ne _ _ _ _ hwt]
  · rw [combineLociCopy_getLocusD_ne _ _ _ _ hwt]

theorem combineLoci_from_cleared (s : SVLocusSet) (f t : Nat) (hft : f ≠ t) :
    ((s.combineLoci f t true).getLocusD f).nodes = [] := by
  unfold SVLocusSet.combineLoci
  split_ifs with h1 h2 h3
  · exact absurd h1 hft
  · rw [getLocusD_of_length_le s f h2]
  · rw [List.isEmpty_iff] at h3
    exact h3
  · exact clearLocus_getLocusD_nodes _ f
  · exact absurd rfl (by assumption)

theorem combineLoci_keep_empty (s : SVLocusSet) (f t w : Nat) (c : Bool)
    (hwt : w ≠ t) (h : (s.getLocusD w).nodes = []) :
    ((s.combineLoci f t c).getLocusD w).nodes = [] := by
  by_cases hwf : w = f
  · subst hwf
    unfold SVLocusSet.combineLoci
    split_ifs with h1 h2 h3 h4
    · exact h
    · exact h
    · exact h
    · exact clearLocus_getLocusD_nodes _ w
    · rw [List.isEmpty_iff] at h3
      exact absurd h h3
  · rw [combineLoci_getLocusD_ne _ _ _ _ _ hwt hwf]
    exact h

theorem combineLoci_to_mono (s : SVLocusSet) (f t : Nat) (c : Bool)
    (nd : SVLocusNode) (h : nd ∈ (s.getLocusD t).nodes) :
    nd ∈ ((s.combineLoci f t c).getLocusD t).nodes := by
  by_cases ht : t < s.loci.length
  · unfold SVLocusSet.combineLoci
    split_ifs with h1 h2 h3 h4
    · exact h
    · exact h
    · exact h
    · rw [clearLocus_getLocusD_ne _ _ _ (Ne.symm h1),
        combineLociCopy_getLocusD_self _ _ _ ht]
      exact List.mem_append_left _ h
    · rw [combineLociCopy_getLocusD_self _ _ _ ht]
      exact List.mem_append_left _ h
  · rw [getLocusD_of_length_le s t (by omega)] at h
    exact absurd h (List.not_mem_nil nd)

theorem combineLoci_copy (s : SVLocusSet) (f t : Nat) (c : Bool)
    (hft : f ≠ t) (ht : t < s.loci.length)
    (nd : SVLocusNode) (hnd : nd ∈ (s.getLocusD f).nodes) :
    ∃ k, SVLocus.shiftNode k nd ∈ ((s.combineLoci f t c).getLocusD t).nodes := by
  unfold SVLocusSet.combineLoci
  split_ifs with h1 h2 h3 h4
  · exact absurd h1 hft
  · rw [getLocusD_of_length_le s f h2] at hnd
    exact absurd hnd (List.not_mem_nil nd)
  · rw [List.isEmpty_iff] at h3
    rw [h3] at hnd
    exact absurd hnd (List.not_mem_nil nd)
  · refine ⟨(s.getLocusD t).nodes.length, ?_⟩
    rw [clearLocus_getLocusD_ne _ _ _ (Ne.symm h1),
      combineLociCopy_getLocusD_self _ _ _ ht]
    exact List.mem_append_right _ (List.mem_map.mpr ⟨nd, hnd, rfl⟩)
  · refine ⟨(s.getLocusD t).nodes.length, ?_⟩
    rw [combineLociCopy_getLocusD_self _ _ _ ht]
    exact List.mem_append_right _ (List.mem_map.mpr ⟨nd, hnd, rfl⟩)

/-! The combine fold of the consolidation step. -/

theorem combineFold_length (chosen : Nat) (l : List NodeAddressType) :
    ∀ st : SVLocusSet,
    (l.foldl (fun st val => st.combineLoci val.1 chosen true) st).loci.length =
      st.loci.length := by
  induction l with
  | nil => intro st; rfl
  | cons v r ih =>
    intro st
    simp only [List.foldl_cons]
    rw [ih, combineLoci_length]

theorem combineFold_mono (chosen : Nat) (l : List NodeAddressType)
    (nd : SVLocusNode) :
    ∀ st : SVLocusSet, nd ∈ (st.getLocusD chosen).nodes →
    nd ∈ ((l.foldl (fun st val => st.combineLoci val.1 chosen true) st).getLocusD
      chosen).nodes := by
  induction l with
  | nil => intro st h; exact h
  | cons v r ih =>
    intro st h
    simp only [List.foldl_cons]
    exact ih _ (combineLoci_to_mono st v.1 chosen true nd h)

theorem combineFold_keep_empty (chosen : Nat) (l : List NodeAddressType)
    (w : Nat) (hwt : w ≠ chosen) :
    ∀ st : SVLocusSet, (st.getLocusD w).nodes = [] →
    (((l.foldl (fun st val => st.combineLoci val.1 chosen true) st).getLocusD
      w).nodes) = [] := by
  induction l with
  | nil => intro st h; exact h
  | cons v r ih =>
    intro st h
    simp only [List.foldl_cons]
    exact ih _ (combineLoci_keep_empty st v.1 chosen w true hwt h)

theorem combineFold_clears (chosen : Nat) (l : List NodeAddressType) :
    ∀ st : SVLocusSet, ∀ v ∈ l, v.1 ≠ chosen →
    (((l.foldl (fun st val => st.combineLoci val.1 chosen true) st).getLocusD
      v.1).nodes) = [] := by
  induction l with
  | nil => intro st v hv; exact absurd hv (List.not_mem_nil v)
  | cons u r ih =>
    intro st v hv hvc
    rcases List.mem_cons.mp hv with h | h
    · subst h
      simp only [List.foldl_cons]
      exact combineFold_keep_empty chosen r v.1 hvc _
        (combineLoci_from_cleared st v.1 chosen hvc)
    · simp only [List.foldl_cons]
      exact ih _ v h hvc

theorem combineInv_step (s0 : SVLocusSet) (chosen : Nat) (st : SVLocusSet)
    (u : Nat) (hc : chosen < st.loci.length) (hI : combineInv s0 chosen st) :
    combineInv s0 chosen (st.combineLoci u chosen true) := by
  intro w hw nd hnd
  rcases hI w hw nd hnd with h | ⟨k, hk⟩
  · by_cases hwu : w = u
    · subst hwu
      rcases combineLoci_copy st w chosen true hw hc nd h with ⟨k, hk⟩
      exact Or.inr ⟨k, hk⟩
    · rw [combineLoci_getLocusD_ne _ _ _ _ _ hw hwu]
      exact Or.inl h
  · exact Or.inr ⟨k, combineLoci_to_mono st u chosen true _ hk⟩

theorem combineFold_inv (s0 : SVLocusSet) (chosen : Nat) (l : List NodeAddressType) :
    ∀ st : SVLocusSet, chosen < st.loci.length → combineInv s0 chosen st →
    combineInv s0 chosen (l.foldl (fun st val => st.combineLoci val.1 chosen true) st) := by
  induction l with
  | nil => intro st _ h; exact h
  | cons v r ih =>
    intro st hc h
    simp only [List.foldl_cons]
    exact ih _ (by rw [combineLoci_length]; exact hc) (combineInv_step s0 chosen st v.1 hc h)

/-! The lowest-index selection loop of moveIntersectToLowIndex. -/

theorem foldMin_spec (r : List NodeAddressType) :
    ∀ init : Nat,
    (r.foldl (fun acc val => if val.1 < acc then val.1 else acc) init) ≤ init ∧
    (∀ v ∈ r, (r.foldl (fun acc val => if val.1 < acc then val.1 else acc) init) ≤ v.1) ∧
    ((r.foldl (fun acc val => if val.1 < acc then val.1 else acc) init) = init ∨
      ∃ v ∈ r, v.1 = (r.foldl (fun acc val => if val.1 < acc then val.1 else acc) init)) := by
  induction r with
  | nil =>
    intro init
    refine ⟨le_refl _, ?_, Or.inl rfl⟩
    intro v hv
    exact absurd hv (List.not_mem_nil v)
  | cons u r ih =>
    intro init
    simp only [List.foldl_cons]
    by_cases h : u.1 < init
    · rw [if_pos h]
      obtain ⟨h1, h2, h3⟩ := ih u.1
      refine ⟨by omega, ?_, ?_⟩
      · intro v hv
        rcases List.mem_cons.mp hv with hv | hv
        · subst hv; omega
        · exact h2 v hv
      · rcases h3 with h3 | ⟨v, hv, hveq⟩
        · exact Or.inr ⟨u, List.mem_cons_self u r, h3.symm⟩
        · exact Or.inr ⟨v, List.mem_cons_of_mem u hv, hveq⟩
    · rw [if_neg h]
      obtain ⟨h1, h2, h3⟩ := ih init
      refine ⟨h1, ?_, ?_⟩
      · intro v hv
        rcases List.mem_cons.mp hv with hv | hv
        · subst hv; omega
        · exact h2 v hv
      · rcases h3 with h3 | ⟨v, hv, hveq⟩
        · exact Or.inl h3
        · exact Or.inr ⟨v, List.mem_cons_of_mem u hv, hveq⟩

/-! C3: the consolidation step moveIntersectToLowIndex. -/

/-- C3 counterexample: the chosen unification id is NOT the lowest of
{current headIndex} ∪ {locus ids of the intersecting addresses}.  With
headIndex = startIndex = 1 (the staging locus, a freshly recycled low slot)
and a single intersecting address in locus 2, that union is {1, 2} with
minimum 1, but the first loop of moveIntersectToLowIndex overwrites the head
index with the first intersecting id unconditionally, choosing 2. -/
theorem moveIntersectToLowIndex_counterexample :
    (consolidationState.moveIntersectToLowIndex [(2, 0)] 1 1).2 = 2 ∧
    (consolidationState.moveIntersectToLowIndex [(2, 0)] 1 1).2 ≠ min 1 2 := by
  constructor
  · rfl
  · decide

/-- C3 amended: the chosen unification locus id is the numerically lowest
locus id among the intersecting addresses alone (the incoming head index
does not participate in the minimum); every involved locus's nodes (the
intersecting loci's and the previous head locus's) end up copied, with
edge-slot shifts, into the chosen locus; intersecting loci other than the
chosen one are cleared, and the previous head locus is cleared when it is
neither the staging locus nor the chosen one; the returned head index is the
chosen id. -/
theorem moveIntersectToLowIndex_spec (s : SVLocusSet)
    (intersect : List NodeAddressType) (startLocusIndex headLocusIndex : Nat)
    (res : SVLocusSet × Nat)
    (hres : s.moveIntersectToLowIndex intersect startLocusIndex headLocusIndex = res)
    (hne : intersect ≠ [])
    (hlt : ∀ v ∈ intersect, v.1 < s.loci.length) :
    (∀ v ∈ intersect, res.2 ≤ v.1) ∧
    (∃ v ∈ intersect, v.1 = res.2) ∧
    (∀ v ∈ intersect, v.1 ≠ res.2 → ((res.1).getLocusD v.1).nodes = []) ∧
    (headLocusIndex ≠ res.2 → headLocusIndex ≠ startLocusIndex →
      ((res.1).getLocusD headLocusIndex).nodes = []) ∧
    (∀ v ∈ intersect, ∀ nd ∈ (s.getLocusD v.1).nodes,
      ∃ k, SVLocus.shiftNode k nd ∈ ((res.1).getLocusD res.2).nodes) ∧
    (∀ nd ∈ (s.getLocusD headLocusIndex).nodes,
      ∃ k, SVLocus.shiftNode k nd ∈ ((res.1).getLocusD res.2).nodes) := by
  obtain ⟨v, rest, rfl⟩ : ∃ v rest, intersect = v :: rest := by
    cases intersect with
    | nil => exact absurd rfl hne
    | cons v rest => exact ⟨v, rest, rfl⟩
  have hr2 : res.2 =
      rest.foldl (fun acc val => if val.1 < acc then val.1 else acc) v.1 := by
    rw [← hres]
    rfl
  have hr1 : res.1 =
      (v :: rest).foldl
        (fun st val => st.combineLoci val.1
          (rest.foldl (fun acc val => if val.1 < acc then val.1 else acc) v.1) true)
        (s.combineLoci headLocusIndex
          (rest.foldl (fun acc val => if val.1 < acc then val.1 else acc) v.1)
          (decide (startLocusIndex ≠ headLocusIndex))) := by
    rw [← hres]
    rfl
  obtain ⟨hm1, hm2, hm3⟩ := foldMin_spec rest v.1
  have hc1 : ∀ u ∈ v :: rest, res.2 ≤ u.1 := by
    intro u hu
    rcases List.mem_cons.mp hu with h | h
    · subst h; rw [hr2]; exact hm1
    · rw [hr2]; exact hm2 u h
  have hc2 : ∃ u ∈ v :: rest, u.1 = res.2 := by
    rcases hm3 with h | ⟨u, hu, hueq⟩
    · exact ⟨v, List.mem_cons_self v rest, by rw [hr2, h]⟩
    · exact ⟨u, List.mem_cons_of_mem v hu, by rw [hr2, hueq]⟩
  have hchlt : res.2 < s.loci.length := by
    obtain ⟨u, hu, hueq⟩ := hc2
    exact hueq ▸ hlt u hu
  have hs1len :
      (s.combineLoci headLocusIndex res.2
        (decide (startLocusIndex ≠ headLocusIndex))).loci.length = s.loci.length :=
    combineLoci_length _ _ _ _
  refine ⟨hc1, hc2, ?_, ?_, ?_, ?_⟩
  · intro u hu huc
    rw [hr1]
    rw [hr2] at huc
    exact combineFold_clears
      (rest.foldl (fun acc val => if val.1 < acc then val.1 else acc) v.1)
      (v :: rest)
      (s.combineLoci headLocusIndex
        (rest.foldl (fun acc val => if val.1 < acc then val.1 else acc) v.1)
        (decide (startLocusIndex ≠ headLocusIndex)))
      u hu huc
  · intro hnechosen hnestart
    have hcl : (decide (startLocusIndex ≠ headLocusIndex)) = true :=
      decide_eq_true (Ne.symm hnestart)
    rw [hr1, hcl]
    rw [hr2] at hnechosen
    refine combineFold_keep_empty _ _ _ hnechosen _ ?_
    exact combineLoci_from_cleared s headLocusIndex _ hnechosen
  · have hInv1 : combineInv s res.2
        (s.combineLoci headLocusIndex res.2 (decide (startLocusIndex ≠ headLocusIndex))) := by
      intro w hw nd hnd
      by_cases hwh : w = headLocusIndex
      · subst hwh
        rcases combineLoci_copy s w res.2 _ hw hchlt nd hnd with ⟨k, hk⟩
        exact Or.inr ⟨k, hk⟩
      · rw [combineLoci_getLocusD_ne _ _ _ _ _ hw hwh]
        exact Or.inl hnd
    have hInv2 := combineFold_inv s res.2 (v :: rest) _ (by rw [hs1len]; exact hchlt) hInv1
    intro u hu nd hnd
    by_cases huc : u.1 = res.2
    · rw [huc] at hnd
      refine ⟨0, ?_⟩
      rw [shiftNode_zero]
      rw [hr1, hr2]
      refine combineFold_mono _ _ _ _ ?_
      exact combineLoci_to_mono _ _ _ _ _ (by rw [← hr2]; exact hnd)
    · rcases hInv2 u.1 huc nd hnd with h | ⟨k, hk⟩
      · rw [hr2] at huc
        have hcl := combineFold_clears
          (rest.foldl (fun acc val => if val.1 < acc then val.1 else acc) v.1)
          (v :: rest) (s.combineLoci headLocusIndex
            (rest.foldl (fun acc val => if val.1 < acc then val.1 else acc) v.1)
            (decide (startLocusIndex ≠ headLocusIndex))) u hu huc
        rw [hr2] at h
        rw [hcl] at h
        exact absurd h (List.not_mem_nil nd)
      · refine ⟨k, ?_⟩
        rw [hr1, hr2]
        rw [hr2] at hk
        exact hk
  · intro nd hnd
    by_cases hhc : headLocusIndex = res.2
    · refine ⟨0, ?_⟩
      rw [shiftNode_zero, hr1, hr2]
      refine combineFold_mono _ _ _ _ ?_
      refine combineLoci_to_mono _ _ _ _ _ ?_
      rw [← hr2, ← hhc]
      exact hnd
    · rcases combineLoci_copy s headLocusIndex res.2
        (decide (startLocusIndex ≠ headLocusIndex)) hhc hchlt nd hnd with ⟨k, hk⟩
      refine ⟨k, ?_⟩
      rw [hr1, hr2]
      refine combineFold_mono _ _ _ _ ?_
      rw [← hr2]
      exact hk

/-- Witness for C3 amended: the consolidation call of the counterexample,
with its conclusions evaluated at the concrete collection. -/
theorem moveIntersectToLowIndex_spec_witness :
    (∀ v ∈ [((2, 0) : NodeAddressType)],
      (consolidationState.moveIntersectToLowIndex [(2, 0)] 1 1).2 ≤ v.1) ∧
    (∃ v ∈ [((2, 0) : NodeAddressType)],
      v.1 = (consolidationState.moveIntersectToLowIndex [(2, 0)] 1 1).2) := by
  have h := moveIntersectToLowIndex_spec consolidationState [(2, 0)] 1 1
    (consolidationState.moveIntersectToLowIndex [(2, 0)] 1 1) rfl
    (by decide) (by decide)
  exact ⟨h.1, h.2.1⟩

/-! C5: the superset target search and the descending fold. -/

theorem addrLT_asymm (a b : NodeAddressType) (h : addrLT a b = true) :
    addrLT b a = false := by
  rw [addrLT_iff] at h
  rcases hf : addrLT b a with _ | _
  · rfl
  · rw [addrLT_iff] at hf
    omega

theorem findSuper_none_iff (s : SVLocusSet) (r : GenomeInterval) :
    ∀ l : List NodeAddressType,
    s.findSuper r l = none ↔ ∀ v ∈ l, (s.intervalD v).rangeSuperset r = false := by
  intro l
  induction l with
  | nil => simp [SVLocusSet.findSuper]
  | cons v rest ih =>
    by_cases hv : (s.intervalD v).rangeSuperset r = true
    · simp only [SVLocusSet.findSuper, hv, if_pos]
      constructor
      · intro h; exact absurd h (by simp)
      · intro h
        have := h v (List.mem_cons_self v rest)
        rw [hv] at this
        exact absurd this (by simp)
    · rw [Bool.not_eq_true] at hv
      simp only [SVLocusSet.findSuper, hv]
      rw [if_neg (by simp [hv])]
      cases hfs : s.findSuper r rest with
      | none =>
        simp only []
        constructor
        · intro _ w hw
          rcases List.mem_cons.mp hw with h | h
          · subst h; exact hv
          · exact (ih.mp hfs) w h
        · intro _; trivial
      | some p =>
        simp only []
        constructor
        · intro h; exact absurd h (by simp)
        · intro h
          have : s.findSuper r rest = none := by
            rw [ih]
            intro w hw
            exact h w (List.mem_cons_of_mem v hw)
          rw [this] at hfs
          exact absurd hfs (by simp)

theorem findSuper_some (s : SVLocusSet) (r : GenomeInterval) :
    ∀ (l : List NodeAddressType) (tgt : NodeAddressType) (rest2 : List NodeAddressType),
    s.findSuper r l = some (tgt, rest2) →
    (s.intervalD tgt).rangeSuperset r = true ∧
    ∃ pre post, l = pre ++ tgt :: post ∧ rest2 = pre ++ post ∧
      ∀ v ∈ pre, (s.intervalD v).rangeSuperset r = false := by
  intro l
  induction l with
  | nil => intro tgt rest2 h; exact absurd h (by simp [SVLocusSet.findSuper])
  | cons v rest ih =>
    intro tgt rest2 h
    by_cases hv : (s.intervalD v).rangeSuperset r = true
    · simp only [SVLocusSet.findSuper, hv, if_pos, Option.some.injEq, Prod.mk.injEq] at h
      obtain ⟨h1, h2⟩ := h
      subst h1; subst h2
      exact ⟨hv, [], rest, rfl, rfl, by intro w hw; exact absurd hw (List.not_mem_nil w)⟩
    · rw [Bool.not_eq_true] at hv
      simp only [SVLocusSet.findSuper] at h
      rw [if_neg (by simp [hv])] at h
      cases hfs : s.findSuper r rest with
      | none => rw [hfs] at h; exact absurd h (by simp)
      | some p =>
        rw [hfs] at h
        simp only [Option.some.injEq, Prod.mk.injEq] at h
        obtain ⟨h1, h2⟩ := h
        obtain ⟨hsup, pre, post, hl, hr, hpre⟩ := ih p.1 p.2 (by rw [hfs])
        subst h1
        refine ⟨hsup, v :: pre, post, by rw [hl]; rfl, ?_, ?_⟩
        · rw [← h2, hr]; rfl
        · intro w hw
          rcases List.mem_cons.mp hw with h | h
          · subst h; exact hv
          · exact hpre w h

theorem addrLT_false_iff (a b : NodeAddressType) :
    addrLT a b = false ↔ ¬ (a.1 < b.1 ∨ (a.1 = b.1 ∧ a.2 < b.2)) := by
  rw [Bool.eq_false_iff]
  exact not_congr (addrLT_iff a b)

theorem insertDesc_perm (a : NodeAddressType) :
    ∀ l : List NodeAddressType, List.Perm (SVLocusSet.insertDesc a l) (a :: l) := by
  intro l
  induction l with
  | nil => rfl
  | cons b r ih =>
    rcases h : addrLT b a with _ | _
    · simp only [SVLocusSet.insertDesc, h]
      simp only [Bool.false_eq_true, if_false]
      exact List.Perm.trans (List.Perm.cons b ih) (List.Perm.swap a b r)
    · simp only [SVLocusSet.insertDesc, h, if_true]
      exact List.Perm.refl _

theorem sortDesc_perm (l : List NodeAddressType) :
    List.Perm (SVLocusSet.sortDesc l) l := by
  induction l with
  | nil => exact List.Perm.refl _
  | cons a r ih =>
    exact List.Perm.trans (insertDesc_perm a (SVLocusSet.sortDesc r)) (List.Perm.cons a ih)

theorem insertDesc_sorted (a : NodeAddressType) :
    ∀ l : List NodeAddressType,
    l.Pairwise (fun x y => addrLT x y = false) →
    (SVLocusSet.insertDesc a l).Pairwise (fun x y => addrLT x y = false) := by
  intro l
  induction l with
  | nil => intro _; simp [SVLocusSet.insertDesc]
  | cons b r ih =>
    intro hp
    rw [List.pairwise_cons] at hp
    obtain ⟨hb, hr⟩ := hp
    rcases h : addrLT b a with _ | _
    · simp only [SVLocusSet.insertDesc, h]
      simp only [Bool.false_eq_true, if_false]
      rw [List.pairwise_cons]
      refine ⟨?_, ih hr⟩
      intro x hx
      rcases List.mem_cons.mp ((insertDesc_perm a r).mem_iff.mp hx) with hx1 | hx1
      · subst hx1
        exact h
      · exact hb x hx1
    · simp only [SVLocusSet.insertDesc, h, if_true]
      rw [List.pairwise_cons]
      refine ⟨?_, ?_⟩
      · intro x hx
        rcases List.mem_cons.mp hx with hx | hx
        · rw [hx]; exact addrLT_asymm b a h
        · have hbx := hb x hx
          rw [addrLT_false_iff] at hbx ⊢
          rw [addrLT_iff] at h
          omega
      · rw [List.pairwise_cons]
        exact ⟨hb, hr⟩

theorem sortDesc_sorted (l : List NodeAddressType) :
    (SVLocusSet.sortDesc l).Pairwise (fun x y => addrLT x y = false) := by
  induction l with
  | nil => simp [SVLocusSet.sortDesc]
  | cons a r ih => exact insertDesc_sorted a (SVLocusSet.sortDesc r) ih

theorem sortDesc_strictDesc (l : List NodeAddressType) (hnd : l.Nodup) :
    (SVLocusSet.sortDesc l).Pairwise (fun x y => addrLT y x = true) := by
  have hnd' : (SVLocusSet.sortDesc l).Nodup := (sortDesc_perm l).nodup_iff.mpr hnd
  have hs := sortDesc_sorted l
  have hand := List.Pairwise.and hs hnd'
  refine List.Pairwise.imp ?_ hand
  intro x y hxy
  obtain ⟨h1, h2⟩ := hxy
  rcases addrLT_total x y h2 with h | h
  · rw [h] at h1; exact absurd h1 (by simp)
  · exact h

theorem foldPairs_fst_mem :
    ∀ (cs : List NodeAddressType) (t : NodeAddressType)
      (p : NodeAddressType × NodeAddressType),
    p ∈ SVLocusSet.foldPairs t cs → p.1 = t ∨ p.1 ∈ cs := by
  intro cs
  induction cs with
  | nil => intro t p h; exact absurd h (List.not_mem_nil p)
  | cons c rest ih =>
    intro t p h
    rcases hc : addrLT c t with _ | _
    · simp only [SVLocusSet.foldPairs, hc] at h
      simp only [Bool.false_eq_true, if_false] at h
      rcases List.mem_cons.mp h with h | h
      · rw [h]; exact Or.inr (List.mem_cons_self c rest)
      · rcases ih t p h with h1 | h1
        · exact Or.inl h1
        · exact Or.inr (List.mem_cons_of_mem c h1)
    · simp only [SVLocusSet.foldPairs, hc, if_true] at h
      rcases List.mem_cons.mp h with h | h
      · rw [h]; exact Or.inl rfl
      · rcases ih c p h with h1 | h1
        · exact Or.inr (h1 ▸ List.mem_cons_self c rest)
        · exact Or.inr (List.mem_cons_of_mem c h1)

theorem foldPairs_spec :
    ∀ (cs : List NodeAddressType) (t : NodeAddressType),
    cs.Pairwise (fun x y => addrLT y x = true) →
    (∀ c ∈ cs, c ≠ t) →
    (∀ p ∈ SVLocusSet.foldPairs t cs, addrLT p.2 p.1 = true) ∧
    (SVLocusSet.foldPairs t cs).Pairwise (fun p q => addrLT q.1 p.1 = true) := by
  intro cs
  induction cs with
  | nil =>
    intro t _ _
    exact ⟨fun p h => absurd h (List.not_mem_nil p), List.Pairwise.nil⟩
  | cons c rest ih =>
    intro t hdesc hne
    rw [List.pairwise_cons] at hdesc
    obtain ⟨hcr, hrest⟩ := hdesc
    have hct : c ≠ t := hne c (List.mem_cons_self c rest)
    have hints : ∀ x ∈ rest, x ≠ c := by
      intro x hx heq
      have hx2 := hcr x hx
      rw [heq, addrLT_irrefl] at hx2
      exact absurd hx2 (by simp)
    rcases hc : addrLT c t with _ | _
    · have htc : addrLT t c = true := by
        rcases addrLT_total c t hct with h | h
        · rw [h] at hc; exact absurd hc (by simp)
        · exact h
      have hrec := ih t hrest (fun x hx => hne x (List.mem_cons_of_mem c hx))
      simp only [SVLocusSet.foldPairs, hc]
      simp only [Bool.false_eq_true, if_false]
      refine ⟨?_, ?_⟩
      · intro p hp
        rcases List.mem_cons.mp hp with h | h
        · rw [h]; exact htc
        · exact hrec.1 p h
      · rw [List.pairwise_cons]
        refine ⟨?_, hrec.2⟩
        intro q hq
        rcases foldPairs_fst_mem rest t q hq with h | h
        · rw [h]; exact htc
        · exact hcr q.1 h
    · have hrec := ih c hrest hints
      simp only [SVLocusSet.foldPairs, hc, if_true]
      refine ⟨?_, ?_⟩
      · intro p hp
        rcases List.mem_cons.mp hp with h | h
        · rw [h]; exact hc
        · exact hrec.1 p h
      · rw [List.pairwise_cons]
        refine ⟨?_, hrec.2⟩
        intro q hq
        rcases foldPairs_fst_mem rest c q hq with h | h
        · rw [h]; exact hc
        · exact addrLT_trans q.1 c t (hcr q.1 h) hc

/-- C5 counterexample: in a reachable post-consolidation state (locus 0 =
head with the pre-existing node chr0:[100,300) and the staged copy
chr0:[150,200), staging locus 1 with input node chr0:[150,200)) the
re-queried intersection holds TWO distinct superset nodes of the input
range, yet the folding step proceeds without any fatality: the code only
requires at least one superset (taking the first in index order), so
"exactly one such node must exist" fails on the code. -/
theorem superset_not_unique_counterexample :
    ((twoSupersetState.getNodeIntersect 1 0).countP
      (fun v => (twoSupersetState.intervalD v).rangeSuperset
        (twoSupersetState.intervalD (1, 0))) = 2) ∧
    (twoSupersetState.mergeIntersectPlan (twoSupersetState.intervalD (1, 0))
      (twoSupersetState.getNodeIntersect 1 0)).isSome = true := by
  constructor
  · rfl
  · rfl

/-- C5 amended: the folding plan fails (the fatal missing-superset
assertion) exactly when no intersecting node's range is a superset of the
input range; otherwise the absorbing target is the FIRST superset node in
intersection order (at least one must exist, not exactly one), and the
remaining intersecting nodes are laid out so that each fold step merges the
higher address into the lower one (the lower address becoming the new
target) with the merged-away (removed) addresses in strictly descending
order, highest first. -/
theorem mergeIntersectPlan_spec (s : SVLocusSet) (inputRange : GenomeInterval)
    (intersect : List NodeAddressType) (hnd : intersect.Nodup) :
    (s.mergeIntersectPlan inputRange intersect = none ↔
      ∀ v ∈ intersect, (s.intervalD v).rangeSuperset inputRange = false) ∧
    (∀ tgt pairs, s.mergeIntersectPlan inputRange intersect = some (tgt, pairs) →
      (s.intervalD tgt).rangeSuperset inputRange = true ∧
      (∃ pre post, intersect = pre ++ tgt :: post ∧
        ∀ v ∈ pre, (s.intervalD v).rangeSuperset inputRange = false) ∧
      (∀ p ∈ pairs, addrLT p.2 p.1 = true) ∧
      pairs.Pairwise (fun p q => addrLT q.1 p.1 = true)) := by
  constructor
  · unfold SVLocusSet.mergeIntersectPlan
    cases hfs : s.findSuper inputRange intersect with
    | none =>
      constructor
      · intro _
        exact (findSuper_none_iff s inputRange intersect).mp hfs
      · intro _
        rfl
    | some p =>
      constructor
      · intro h
        exact absurd h (by simp)
      · intro h
        have h0 : s.findSuper inputRange intersect = none :=
          (findSuper_none_iff s inputRange intersect).mpr h
        rw [h0] at hfs
        exact absurd hfs (by simp)
  · intro tgt pairs hplan
    unfold SVLocusSet.mergeIntersectPlan at hplan
    cases hfs : s.findSuper inputRange intersect with
    | none =>
      rw [hfs] at hplan
      exact absurd hplan (by simp)
    | some p =>
      obtain ⟨tgt0, rest0⟩ := p
      rw [hfs] at hplan
      simp only [Option.some.injEq, Prod.mk.injEq] at hplan
      obtain ⟨hp1, hp2⟩ := hplan
      subst hp1
      obtain ⟨hsup, pre, post, hl, hr, hpre⟩ :=
        findSuper_some s inputRange intersect tgt0 rest0 hfs
      have hnd2 : rest0.Nodup := by
        rw [hr]
        refine List.Sublist.nodup ?_ (hl ▸ hnd)
        exact (List.sublist_cons_self tgt0 post).append_left pre
      have htgt_not : tgt0 ∉ rest0 := by
        rw [hr]
        have hnd3 := hl ▸ hnd
        rw [List.nodup_append] at hnd3
        obtain ⟨h1, h2, h3⟩ := hnd3
        rw [List.nodup_cons] at h2
        intro hm
        rcases List.mem_append.mp hm with hm | hm
        · exact h3 hm (List.mem_cons_self tgt0 post)
        · exact h2.1 hm
      have hdesc := sortDesc_strictDesc rest0 hnd2
      have hneq : ∀ c ∈ SVLocusSet.sortDesc rest0, c ≠ tgt0 := by
        intro c hc hceq
        exact htgt_not (hceq ▸ (sortDesc_perm rest0).mem_iff.mp hc)
      have hfold := foldPairs_spec (SVLocusSet.sortDesc rest0) tgt0 hdesc hneq
      refine ⟨hsup, ⟨pre, post, hl, hpre⟩, ?_, ?_⟩
      · rw [← hp2]
        exact hfold.1
      · rw [← hp2]
        exact hfold.2

/-- Witness for C5 amended: the plan at the two-superset collection — the
target is the first superset (0,0) and the single fold pair merges (0,1)
into (0,0), the lower address. -/
theorem mergeIntersectPlan_spec_witness :
    (twoSupersetState.intervalD ((0, 0) : NodeAddressType)).rangeSuperset
      (twoSupersetState.intervalD (1, 0)) = true ∧
    (∀ p ∈ [((((0, 1) : NodeAddressType), ((0, 0) : NodeAddressType)))],
      addrLT p.2 p.1 = true) := by
  have h := (mergeIntersectPlan_spec twoSupersetState
    (twoSupersetState.intervalD (1, 0)) [(0, 0), (0, 1)] (by decide)).2
    (0, 0) [((0, 1), (0, 0))] (by rfl)
  exact ⟨h.1, h.2.2.1⟩

/-! C4: getNodeIntersect — soundness and completeness of the bounded
forward/backward sweep. -/

theorem nodeKeyLT_false_iff (s : SVLocusSet) (a b : NodeAddressType) :
    s.nodeKeyLT a b = false ↔
      ¬ ((s.intervalD a).tid < (s.intervalD b).tid ∨
         ((s.intervalD a).tid = (s.intervalD b).tid ∧
          ((s.intervalD a).bpos < (s.intervalD b).bpos ∨
           ((s.intervalD a).bpos = (s.intervalD b).bpos ∧ addrLT a b = true)))) := by
  rw [Bool.eq_false_iff]
  exact not_congr (nodeKeyLT_iff s a b)

theorem isIntersect_false_iff (a b : GenomeInterval) :
    a.isIntersect b = false ↔ ¬ (a.tid = b.tid ∧ a.bpos < b.epos ∧ b.bpos < a.epos) := by
  rw [Bool.eq_false_iff]
  exact not_congr (isIntersect_iff a b)

theorem scan_break_fwd (s : SVLocusSet) (inputAddy x a : NodeAddressType)
    (hge : s.nodeKeyLT x inputAddy = false)
    (hposx : (s.intervalD x).bpos < (s.intervalD x).epos)
    (hnix : (s.intervalD inputAddy).isIntersect (s.intervalD x) = false)
    (hlt : s.nodeKeyLT x a = true) :
    (s.intervalD inputAddy).isIntersect (s.intervalD a) = false := by
  rw [nodeKeyLT_false_iff] at hge
  rw [nodeKeyLT_iff] at hlt
  rw [isIntersect_false_iff] at hnix ⊢
  rw [addrLT_iff] at hge hlt
  omega

theorem scan_break_rev (s : SVLocusSet) (inputAddy x a : NodeAddressType)
    (hin : s.nodeKeyLT x inputAddy = true)
    (hposx : (s.intervalD x).bpos < (s.intervalD x).epos)
    (hposin : (s.intervalD inputAddy).bpos < (s.intervalD inputAddy).epos)
    (hnix : (s.intervalD inputAddy).isIntersect (s.intervalD x) = false)
    (hdesc : s.nodeKeyLT a x = true)
    (hno : (s.intervalD x).isIntersect (s.intervalD a) = false) :
    (s.intervalD inputAddy).isIntersect (s.intervalD a) = false := by
  rw [nodeKeyLT_iff] at hin hdesc
  rw [isIntersect_false_iff] at hnix hno ⊢
  rw [addrLT_iff] at hin hdesc
  omega

theorem scanIntersect_sound (s : SVLocusSet) (locusIndex : Nat)
    (iv : GenomeInterval) :
    ∀ (xs : List NodeAddressType) (a : NodeAddressType),
    a ∈ SVLocusSet.scanIntersect s locusIndex iv xs →
    a ∈ xs ∧ a.1 ≠ locusIndex ∧ iv.isIntersect (s.intervalD a) = true := by
  intro xs
  induction xs with
  | nil => intro a h; exact absurd h (List.not_mem_nil a)
  | cons x r ih =>
    intro a h
    by_cases hx : x.1 = locusIndex
    · rw [SVLocusSet.scanIntersect, if_pos hx] at h
      obtain ⟨h1, h2, h3⟩ := ih a h
      exact ⟨List.mem_cons_of_mem x h1, h2, h3⟩
    · rw [SVLocusSet.scanIntersect, if_neg hx] at h
      by_cases hint : iv.isIntersect (s.intervalD x) = true
      · rw [if_pos hint] at h
        rcases List.mem_cons.mp h with h | h
        · subst h
          exact ⟨List.mem_cons_self _ r, hx, hint⟩
        · obtain ⟨h1, h2, h3⟩ := ih a h
          exact ⟨List.mem_cons_of_mem x h1, h2, h3⟩
      · rw [if_neg hint] at h
        exact absurd h (List.not_mem_nil a)

theorem scanIntersect_complete_fwd (s : SVLocusSet) (locusIndex : Nat)
    (inputAddy : NodeAddressType) :
    ∀ xs : List NodeAddressType,
    xs.Pairwise (fun x y => s.nodeKeyLT x y = true) →
    (∀ x ∈ xs, s.nodeKeyLT x inputAddy = false) →
    (∀ x ∈ xs, (s.intervalD x).bpos < (s.intervalD x).epos) →
    ∀ a ∈ xs, a.1 ≠ locusIndex →
    (s.intervalD inputAddy).isIntersect (s.intervalD a) = true →
    a ∈ SVLocusSet.scanIntersect s locusIndex (s.intervalD inputAddy) xs := by
  intro xs
  induction xs with
  | nil => intro _ _ _ a ha; exact absurd ha (List.not_mem_nil a)
  | cons x r ih =>
    intro hsort hge hpos a ha haL hint
    rw [List.pairwise_cons] at hsort
    obtain ⟨hxr, hsr⟩ := hsort
    by_cases hx : x.1 = locusIndex
    · rw [SVLocusSet.scanIntersect, if_pos hx]
      have ha' : a ∈ r := by
        rcases List.mem_cons.mp ha with h | h
        · rw [h] at haL; exact absurd hx haL
        · exact h
      exact ih hsr (fun y hy => hge y (List.mem_cons_of_mem x hy))
        (fun y hy => hpos y (List.mem_cons_of_mem x hy)) a ha' haL hint
    · rw [SVLocusSet.scanIntersect, if_neg hx]
      by_cases hintx : (s.intervalD inputAddy).isIntersect (s.intervalD x) = true
      · rw [if_pos hintx]
        rcases List.mem_cons.mp ha with h | h
        · rw [h]; exact List.mem_cons_self x _
        · exact List.mem_cons_of_mem x
            (ih hsr (fun y hy => hge y (List.mem_cons_of_mem x hy))
              (fun y hy => hpos y (List.mem_cons_of_mem x hy)) a h haL hint)
      · exfalso
        rcases List.mem_cons.mp ha with h | h
        · rw [h] at hint; exact hintx hint
        · have hbreak := scan_break_fwd s inputAddy x a
            (hge x (List.mem_cons_self x r))
            (hpos x (List.mem_cons_self x r))
            (Bool.not_eq_true _ ▸ hintx) (hxr a h)
          rw [hint] at hbreak
          exact absurd hbreak (by simp)

theorem scanIntersect_complete_rev (s : SVLocusSet) (locusIndex : Nat)
    (inputAddy : NodeAddressType)
    (hposin : (s.intervalD inputAddy).bpos < (s.intervalD inputAddy).epos) :
    ∀ zs : List NodeAddressType,
    zs.Pairwise (fun x y => s.nodeKeyLT y x = true) →
    (∀ x ∈ zs, s.nodeKeyLT x inputAddy = true) →
    (∀ x ∈ zs, (s.intervalD x).bpos < (s.intervalD x).epos) →
    (∀ x ∈ zs, ∀ y ∈ zs, x ≠ y → x.1 ≠ locusIndex → y.1 ≠ locusIndex →
      (s.intervalD x).isIntersect (s.intervalD y) = false) →
    ∀ a ∈ zs, a.1 ≠ locusIndex →
    (s.intervalD inputAddy).isIntersect (s.intervalD a) = true →
    a ∈ SVLocusSet.scanIntersect s locusIndex (s.intervalD inputAddy) zs := by
  intro zs
  induction zs with
  | nil => intro _ _ _ _ a ha; exact absurd ha (List.not_mem_nil a)
  | cons x r ih =>
    intro hsort hlt hpos hno a ha haL hint
    rw [List.pairwise_cons] at hsort
    obtain ⟨hxr, hsr⟩ := hsort
    by_cases hx : x.1 = locusIndex
    · rw [SVLocusSet.scanIntersect, if_pos hx]
      have ha' : a ∈ r := by
        rcases List.mem_cons.mp ha with h | h
        · rw [h] at haL; exact absurd hx haL
        · exact h
      exact ih hsr (fun y hy => hlt y (List.mem_cons_of_mem x hy))
        (fun y hy => hpos y (List.mem_cons_of_mem x hy))
        (fun y hy z hz => hno y (List.mem_cons_of_mem x hy) z (List.mem_cons_of_mem x hz))
        a ha' haL hint
    · rw [SVLocusSet.scanIntersect, if_neg hx]
      by_cases hintx : (s.intervalD inputAddy).isIntersect (s.intervalD x) = true
      · rw [if_pos hintx]
        rcases List.mem_cons.mp ha with h | h
        · rw [h]; exact List.mem_cons_self x _
        · exact List.mem_cons_of_mem x
            (ih hsr (fun y hy => hlt y (List.mem_cons_of_mem x hy))
              (fun y hy => hpos y (List.mem_cons_of_mem x hy))
              (fun y hy z hz => hno y (List.mem_cons_of_mem x hy) z (List.mem_cons_of_mem x hz))
              a h haL hint)
      · exfalso
        rcases List.mem_cons.mp ha with h | h
        · rw [h] at hint; exact hintx hint
        · have hax : a ≠ x := by
            intro heq
            have := hxr a h
            rw [heq, nodeKeyLT_irrefl] at this
            exact absurd this (by simp)
          have hnoxa := hno x (List.mem_cons_self x r) a (List.mem_cons_of_mem x h)
            (Ne.symm hax) hx haL
          have hbreak := scan_break_rev s inputAddy x a
            (hlt x (List.mem_cons_self x r))
            (hpos x (List.mem_cons_self x r)) hposin
            (Bool.not_eq_true _ ▸ hintx) (hxr a h) hnoxa
          rw [hint] at hbreak
          exact absurd hbreak (by simp)

theorem dropWhile_key_not_lt (s : SVLocusSet) (inputAddy : NodeAddressType) :
    ∀ xs : List NodeAddressType,
    xs.Pairwise (fun x y => s.nodeKeyLT x y = true) →
    ∀ x ∈ xs.dropWhile (fun e => s.nodeKeyLT e inputAddy),
      s.nodeKeyLT x inputAddy = false := by
  intro xs
  induction xs with
  | nil => intro _ x hx; exact absurd hx (List.not_mem_nil x)
  | cons e r ih =>
    intro hsort x hx
    rw [List.pairwise_cons] at hsort
    obtain ⟨her, hsr⟩ := hsort
    rw [List.dropWhile_cons] at hx
    by_cases hp : s.nodeKeyLT e inputAddy = true
    · rw [if_pos (by exact hp)] at hx
      exact ih hsr x hx
    · rw [if_neg (by exact hp)] at hx
      rcases List.mem_cons.mp hx with h | h
      · rw [h]
        exact Bool.not_eq_true _ ▸ hp
      · rcases hxv : s.nodeKeyLT x inputAddy with _ | _
        · rfl
        · exact absurd (nodeKeyLT_trans s e x inputAddy (her x h) hxv) hp

theorem getNodeIntersect_eq (s : SVLocusSet) (locusIndex nodeIndex : Nat) :
    s.getNodeIntersect locusIndex nodeIndex =
      (SVLocusSet.scanIntersect s locusIndex (s.intervalD (locusIndex, nodeIndex))
        ((s.inodes.takeWhile
          (fun e => s.nodeKeyLT e (locusIndex, nodeIndex))).reverse)).reverse ++
      SVLocusSet.scanIntersect s locusIndex (s.intervalD (locusIndex, nodeIndex))
        (s.inodes.dropWhile (fun e => s.nodeKeyLT e (locusIndex, nodeIndex))) := rfl

/-- C4 counterexample: with the index merely position-sorted (but
other-locus entries overlapping each other), getNodeIntersect misses an
intersecting other-locus node: the backward sweep from chr0:[60,70) stops at
the non-intersecting chr0:[40,50) and never reaches chr0:[0,100), which
covers the input node. -/
theorem getNodeIntersect_counterexample :
    SVLocusSet.indexSorted overlappingIndexState ∧
    ((0, 0) : NodeAddressType) ∈ overlappingIndexState.inodes ∧
    ((0, 0) : NodeAddressType).1 ≠ 2 ∧
    (overlappingIndexState.intervalD (2, 0)).isIntersect
      (overlappingIndexState.intervalD (0, 0)) = true ∧
    ((0, 0) : NodeAddressType) ∉ overlappingIndexState.getNodeIntersect 2 0 := by
  refine ⟨?_, by decide, by decide, by decide, by decide⟩
  unfold SVLocusSet.indexSorted
  decide

/-- Core exactness of getNodeIntersect: under a position-sorted index with
positive-length entries whose other-locus entries are pairwise
non-overlapping, the two sweeps return exactly the other-locus index
entries intersecting the input node's interval. -/
theorem getNodeIntersect_exact_core (s : SVLocusSet) (locusIndex nodeIndex : Nat)
    (hsort : SVLocusSet.indexSorted s)
    (hpos : SVLocusSet.indexPositive s)
    (hno : SVLocusSet.indexNonOverlapAt s locusIndex)
    (hiv : (s.intervalD (locusIndex, nodeIndex)).bpos <
      (s.intervalD (locusIndex, nodeIndex)).epos)
    (a : NodeAddressType) :
    a ∈ s.getNodeIntersect locusIndex nodeIndex ↔
      (a ∈ s.inodes ∧ a.1 ≠ locusIndex ∧
        (s.intervalD (locusIndex, nodeIndex)).isIntersect (s.intervalD a) = true) := by
  rw [getNodeIntersect_eq, List.mem_append, List.mem_reverse]
  have hsplit :
      s.inodes.takeWhile (fun e => s.nodeKeyLT e (locusIndex, nodeIndex)) ++
        s.inodes.dropWhile (fun e => s.nodeKeyLT e (locusIndex, nodeIndex)) = s.inodes :=
    List.takeWhile_append_dropWhile _ _
  have htsub : ∀ x ∈ s.inodes.takeWhile (fun e => s.nodeKeyLT e (locusIndex, nodeIndex)),
      x ∈ s.inodes :=
    fun x hx => (List.takeWhile_sublist _).subset hx
  have hdsub : ∀ x ∈ s.inodes.dropWhile (fun e => s.nodeKeyLT e (locusIndex, nodeIndex)),
      x ∈ s.inodes :=
    fun x hx => (List.dropWhile_sublist _).subset hx
  have hsort_take : (s.inodes.takeWhile
      (fun e => s.nodeKeyLT e (locusIndex, nodeIndex))).Pairwise
      (fun x y => s.nodeKeyLT x y = true) :=
    hsort.sublist (List.takeWhile_sublist _)
  have hsort_drop : (s.inodes.dropWhile
      (fun e => s.nodeKeyLT e (locusIndex, nodeIndex))).Pairwise
      (fun x y => s.nodeKeyLT x y = true) :=
    hsort.sublist (List.dropWhile_sublist _)
  constructor
  · intro h
    rcases h with h | h
    · obtain ⟨h1, h2, h3⟩ := scanIntersect_sound s locusIndex _ _ a h
      rw [List.mem_reverse] at h1
      exact ⟨htsub a h1, h2, h3⟩
    · obtain ⟨h1, h2, h3⟩ := scanIntersect_sound s locusIndex _ _ a h
      exact ⟨hdsub a h1, h2, h3⟩
  · intro h
    obtain ⟨hmem, haL, hint⟩ := h
    rw [← hsplit] at hmem
    rcases List.mem_append.mp hmem with hmem | hmem
    · left
      refine scanIntersect_complete_rev s locusIndex (locusIndex, nodeIndex) hiv
        _ ?_ ?_ ?_ ?_ a (List.mem_reverse.mpr hmem) haL hint
      · rw [List.pairwise_reverse]
        exact hsort_take
      · intro x hx
        have hx1 : x ∈ s.inodes.takeWhile
            (fun e => s.nodeKeyLT e (locusIndex, nodeIndex)) := List.mem_reverse.mp hx
        have hx2 := List.mem_takeWhile_imp hx1
        exact hx2
      · intro x hx
        exact hpos x (htsub x (List.mem_reverse.mp hx))
      · intro x hx y hy hxy hxL hyL
        exact hno x (htsub x (List.mem_reverse.mp hx)) y (htsub y (List.mem_reverse.mp hy))
          hxy hxL hyL
    · right
      refine scanIntersect_complete_fwd s locusIndex (locusIndex, nodeIndex)
        _ hsort_drop ?_ ?_ a hmem haL hint
      · exact dropWhile_key_not_lt s (locusIndex, nodeIndex) s.inodes hsort
      · intro x hx
        exact hpos x (hdsub x hx)

/-- C4 amended: for a collection whose index is position-sorted and whose
entries have positive-length intervals, with the other-locus entries
pairwise non-overlapping per chromosome, and a positive-length input node,
getNodeIntersect returns exactly the other-locus index entries whose
intervals intersect the input node's interval. -/
theorem getNodeIntersect_exact (s : SVLocusSet) (locusIndex nodeIndex : Nat)
    (hsort : SVLocusSet.indexSorted s)
    (hpos : SVLocusSet.indexPositive s)
    (hno : SVLocusSet.indexNonOverlapAt s locusIndex)
    (hiv : (s.intervalD (locusIndex, nodeIndex)).bpos <
      (s.intervalD (locusIndex, nodeIndex)).epos)
    (a : NodeAddressType) :
    a ∈ s.getNodeIntersect locusIndex nodeIndex ↔
      (a ∈ s.inodes ∧ a.1 ≠ locusIndex ∧
        (s.intervalD (locusIndex, nodeIndex)).isIntersect (s.intervalD a) = true) :=
  getNodeIntersect_exact_core s locusIndex nodeIndex hsort hpos hno hiv a

/-- Witness for C4 amended: the exactness equivalence evaluated on the
consistent two-locus collection at the intersecting other-locus address. -/
theorem getNodeIntersect_exact_witness :
    ((0, 0) : NodeAddressType) ∈ twoLocusState.getNodeIntersect 1 0 ↔
      (((0, 0) : NodeAddressType) ∈ twoLocusState.inodes ∧
        ((0, 0) : NodeAddressType).1 ≠ 1 ∧
        (twoLocusState.intervalD (1, 0)).isIntersect
          (twoLocusState.intervalD (0, 0)) = true) := by
  refine getNodeIntersect_exact twoLocusState 1 0 ?_ ?_ ?_ (by decide) (0, 0)
  · unfold SVLocusSet.indexSorted
    decide
  · unfold SVLocusSet.indexPositive
    decide
  · unfold SVLocusSet.indexNonOverlapAt
    decide

/-! C9: the checkState failure conditions. -/

theorem firstMissingAux_none_iff (inodes : List NodeAddressType) :
    ∀ (ls : List SVLocus) (base : Nat),
    SVLocusSet.firstMissingAux inodes base ls = none ↔
      ∀ k, k < ls.length → ∀ j, j < (ls.getD k ⟨0, []⟩).nodes.length →
        ((base + k, j) : NodeAddressType) ∈ inodes := by
  intro ls
  induction ls with
  | nil =>
    intro base
    constructor
    · intro _ k hk
      exact absurd hk (by simp)
    · intro _
      rfl
  | cons l rest ih =>
    intro base
    unfold SVLocusSet.firstMissingAux
    cases hf : (List.range l.nodes.length).find?
        (fun j => decide (((base, j) : NodeAddressType) ∉ inodes)) with
    | some j =>
      constructor
      · intro h
        exact absurd h (by simp)
      · intro h
        have hj := List.find?_some hf
        have hjm := List.mem_of_find?_eq_some hf
        rw [List.mem_range] at hjm
        rw [decide_eq_true_eq] at hj
        have hmem := h 0 (by simp) j (by exact hjm)
        rw [Nat.add_zero] at hmem
        exact absurd hmem hj
    | none =>
      rw [ih (base + 1)]
      constructor
      · intro h k hk j hj
        cases k with
        | zero =>
          have hnone := List.find?_eq_none.mp hf j (List.mem_range.mpr (by exact hj))
          rw [decide_eq_true_eq] at hnone
          rw [Nat.add_zero]
          exact not_not.mp hnone
        | succ k1 =>
          have hres := h k1 (by simpa using hk) j (by exact hj)
          have harith : base + 1 + k1 = base + (k1 + 1) := by omega
          rw [harith] at hres
          exact hres
      · intro h k hk j hj
        have hres := h (k + 1) (by simpa using hk) j (by exact hj)
        have harith : base + (k + 1) = base + 1 + k := by omega
        rw [harith] at hres
        exact hres

theorem firstMissing_none_iff (s : SVLocusSet) :
    s.firstMissing = none ↔
      ∀ i, i < s.loci.length → ∀ j, j < (s.getLocusD i).nodes.length →
        ((i, j) : NodeAddressType) ∈ s.inodes := by
  unfold SVLocusSet.firstMissing
  rw [firstMissingAux_none_iff s.inodes s.loci 0]
  constructor
  · intro h i hi j hj
    have hbridge : s.getLocusD i = s.loci.getD i ⟨0, []⟩ := by
      rw [getLocusD_eq, List.getD_eq_getElem?_getD]
      rw [List.getElem?_eq_getElem hi]
      rfl
    have hres := h i hi j (by rw [← hbridge]; exact hj)
    rw [Nat.zero_add] at hres
    exact hres
  · intro h k hk j hj
    have hbridge : s.getLocusD k = s.loci.getD k ⟨0, []⟩ := by
      rw [getLocusD_eq, List.getD_eq_getElem?_getD]
      rw [List.getElem?_eq_getElem hk]
      rfl
    rw [Nat.zero_add]
    exact h k hk j (by rw [hbridge]; exact hj)

theorem overlapWalk_cons_bad (s : SVLocusSet)
    (last : Option (NodeAddressType × GenomeInterval)) (a : NodeAddressType)
    (r : List NodeAddressType)
    (hpos : ¬ (s.intervalD a).bpos < (s.intervalD a).epos) :
    s.overlapWalk last (a :: r) = some (.badInterval a (s.intervalD a)) := by
  exact if_pos hpos

theorem overlapWalk_cons_none (s : SVLocusSet) (a : NodeAddressType)
    (r : List NodeAddressType)
    (hpos : (s.intervalD a).bpos < (s.intervalD a).epos) :
    s.overlapWalk none (a :: r) = s.overlapWalk (some (a, s.intervalD a)) r := by
  exact if_neg (not_not.mpr hpos)

theorem overlapWalk_cons_some_step (s : SVLocusSet) (p a : NodeAddressType)
    (r : List NodeAddressType)
    (hpos : (s.intervalD a).bpos < (s.intervalD a).epos) :
    s.overlapWalk (some (p, s.intervalD p)) (a :: r) =
      if (s.intervalD p).tid = (s.intervalD a).tid ∧
          (s.intervalD a).bpos < (s.intervalD p).epos
      then some (.overlappingNodes p a (s.intervalD p) (s.intervalD a))
      else s.overlapWalk (some (a, s.intervalD a)) r := by
  exact if_neg (not_not.mpr hpos)

theorem overlapWalk_none_iff (s : SVLocusSet) :
    ∀ (l : List NodeAddressType) (prev : Option NodeAddressType),
    s.overlapWalk (prev.map (fun p => (p, s.intervalD p))) l = none ↔
      ((∀ a ∈ l, (s.intervalD a).bpos < (s.intervalD a).epos) ∧
        SVLocusSet.walkPairsOk s prev l) := by
  intro l
  induction l with
  | nil =>
    intro prev
    cases prev with
    | none =>
      constructor
      · intro _
        exact ⟨fun a ha => absurd ha (List.not_mem_nil a), trivial⟩
      · intro _
        rfl
    | some p =>
      constructor
      · intro _
        exact ⟨fun a ha => absurd ha (List.not_mem_nil a), trivial⟩
      · intro _
        rfl
  | cons a r ih =>
    intro prev
    by_cases hpos : (s.intervalD a).bpos < (s.intervalD a).epos
    · cases prev with
      | none =>
        rw [show (Option.map (fun p => (p, s.intervalD p))
            (none : Option NodeAddressType)) = none from rfl]
        rw [overlapWalk_cons_none s a r hpos]
        have hih := ih (some a)
        rw [show (Option.map (fun p => (p, s.intervalD p)) (some a)) =
            some (a, s.intervalD a) from rfl] at hih
        rw [hih]
        show _ ↔ _ ∧ SVLocusSet.walkPairsOk s (some a) r
        constructor
        · intro ⟨h1, h2⟩
          refine ⟨?_, h2⟩
          intro x hx
          rcases List.mem_cons.mp hx with hx | hx
          · rw [hx]; exact hpos
          · exact h1 x hx
        · intro ⟨h1, h2⟩
          exact ⟨fun x hx => h1 x (List.mem_cons_of_mem a hx), h2⟩
      | some p =>
        rw [show (Option.map (fun p => (p, s.intervalD p)) (some p)) =
            some (p, s.intervalD p) from rfl]
        rw [overlapWalk_cons_some_step s p a r hpos]
        by_cases hbad : (s.intervalD p).tid = (s.intervalD a).tid ∧
            (s.intervalD a).bpos < (s.intervalD p).epos
        · rw [if_pos hbad]
          constructor
          · intro h
            exact absurd h (by simp)
          · intro ⟨h1, h2⟩
            exact absurd hbad h2.1
        · rw [if_neg hbad]
          have hih := ih (some a)
          rw [show (Option.map (fun p => (p, s.intervalD p)) (some a)) =
              some (a, s.intervalD a) from rfl] at hih
          rw [hih]
          constructor
          · intro ⟨h1, h2⟩
            refine ⟨?_, hbad, h2⟩
            intro x hx
            rcases List.mem_cons.mp hx with hx | hx
            · rw [hx]; exact hpos
            · exact h1 x hx
          · intro ⟨h1, h2⟩
            exact ⟨fun x hx => h1 x (List.mem_cons_of_mem a hx), h2.2⟩
    · cases prev with
      | none =>
        rw [show (Option.map (fun p => (p, s.intervalD p))
            (none : Option NodeAddressType)) = none from rfl]
        rw [overlapWalk_cons_bad s none a r hpos]
        constructor
        · intro h
          exact absurd h (by simp)
        · intro ⟨h1, _⟩
          exact absurd (h1 a (List.mem_cons_self a r)) hpos
      | some p =>
        rw [show (Option.map (fun p => (p, s.intervalD p)) (some p)) =
            some (p, s.intervalD p) from rfl]
        rw [overlapWalk_cons_bad s (some (p, s.intervalD p)) a r hpos]
        constructor
        · intro h
          exact absurd h (by simp)
        · intro ⟨h1, _⟩
          exact absurd (h1 a (List.mem_cons_self a r)) hpos

theorem walkPairsOk_some_iff (s : SVLocusSet) :
    ∀ (l : List NodeAddressType) (p : NodeAddressType),
    SVLocusSet.walkPairsOk s (some p) l ↔
      ∀ k, k + 1 < (p :: l).length →
        ¬ s.walkPairBad ((p :: l).getD k (0, 0)) ((p :: l).getD (k + 1) (0, 0)) := by
  intro l
  induction l with
  | nil =>
    intro p
    constructor
    · intro _ k hk
      exact absurd hk (by simp)
    · intro _
      trivial
  | cons a r ih =>
    intro p
    show (¬ s.walkPairBad p a ∧ SVLocusSet.walkPairsOk s (some a) r) ↔ _
    rw [ih a]
    constructor
    · intro ⟨h1, h2⟩ k hk
      cases k with
      | zero => exact h1
      | succ k1 =>
        exact h2 k1 (by simpa using hk)
    · intro h
      refine ⟨h 0 (by simp), ?_⟩
      intro k hk
      exact h (k + 1) (by simpa using hk)

theorem walkPairsOk_none_iff (s : SVLocusSet) :
    ∀ l : List NodeAddressType,
    SVLocusSet.walkPairsOk s none l ↔
      ∀ k, k + 1 < l.length →
        ¬ s.walkPairBad (l.getD k (0, 0)) (l.getD (k + 1) (0, 0)) := by
  intro l
  cases l with
  | nil =>
    constructor
    · intro _ k hk
      exact absurd hk (by simp)
    · intro _
      trivial
  | cons a r =>
    show SVLocusSet.walkPairsOk s (some a) r ↔ _
    exact walkPairsOk_some_iff s r a

theorem adjacent_bad_iff_intersect (s : SVLocusSet)
    (hsort : SVLocusSet.indexSorted s)
    (hposall : ∀ a ∈ s.inodes, (s.intervalD a).bpos < (s.intervalD a).epos)
    (k : Nat) (hk : k + 1 < s.inodes.length) :
    s.walkPairBad (s.inodes.getD k (0, 0)) (s.inodes.getD (k + 1) (0, 0)) ↔
      (s.intervalD (s.inodes.getD k (0, 0))).isIntersect
        (s.intervalD (s.inodes.getD (k + 1) (0, 0))) = true := by
  have hk0 : k < s.inodes.length := by omega
  have hget0 : s.inodes.getD k (0, 0) = s.inodes[k] := List.getD_eq_getElem s.inodes (0, 0) hk0
  have hget1 : s.inodes.getD (k + 1) (0, 0) = s.inodes[k + 1] :=
    List.getD_eq_getElem s.inodes (0, 0) hk
  have hklt : s.nodeKeyLT s.inodes[k] s.inodes[k + 1] = true :=
    List.pairwise_iff_getElem.mp hsort k (k + 1) hk0 hk (by omega)
  have hposk1 : (s.intervalD s.inodes[k + 1]).bpos < (s.intervalD s.inodes[k + 1]).epos :=
    hposall _ (List.getElem_mem hk)
  rw [hget0, hget1]
  unfold SVLocusSet.walkPairBad
  rw [isIntersect_iff]
  rw [nodeKeyLT_iff, addrLT_iff] at hklt
  constructor
  · intro ⟨h1, h2⟩
    omega
  · intro ⟨h1, h2, h3⟩
    omega

theorem checkState_eq_missing (s : SVLocusSet) (b : Bool) (a : NodeAddressType)
    (h : s.firstMissing = some a) :
    s.checkState b = .error (.missingFromIndex a) := by
  unfold SVLocusSet.checkState
  rw [h]

theorem checkState_eq_countMismatch (s : SVLocusSet) (b : Bool)
    (h1 : s.firstMissing = none) (h2 : s.totalNodeCount ≠ s.inodes.length) :
    s.checkState b = .error (.countMismatch s.totalNodeCount s.inodes.length) := by
  unfold SVLocusSet.checkState
  rw [h1]
  rw [if_pos h2]

theorem checkState_eq_ok_noCheck (s : SVLocusSet)
    (h1 : s.firstMissing = none) (h2 : ¬ s.totalNodeCount ≠ s.inodes.length) :
    s.checkState false = .ok () := by
  unfold SVLocusSet.checkState
  rw [h1]
  rw [if_neg h2]
  rw [if_pos (by decide)]

theorem checkState_eq_walk_error (s : SVLocusSet) (e : SVLocusSet.CheckError)
    (h1 : s.firstMissing = none) (h2 : ¬ s.totalNodeCount ≠ s.inodes.length)
    (h3 : s.overlapWalk none s.inodes = some e) :
    s.checkState true = .error e := by
  unfold SVLocusSet.checkState
  rw [h1]
  rw [if_neg h2]
  rw [if_neg (by decide)]
  rw [h3]

theorem checkState_eq_walk_ok (s : SVLocusSet)
    (h1 : s.firstMissing = none) (h2 : ¬ s.totalNodeCount ≠ s.inodes.length)
    (h3 : s.overlapWalk none s.inodes = none) :
    s.checkState true = .ok () := by
  unfold SVLocusSet.checkState
  rw [h1]
  rw [if_neg h2]
  rw [if_neg (by decide)]
  rw [h3]

/-- C9: checkState fails fatally if and only if some real node has no
matching index entry with its exact address, or the total live node count
differs from the index size, or — when overlap checking is requested — some
indexed interval has zero or negative length, or two adjacent index entries
on the same chromosome have overlapping ranges; on a consistent collection
it returns without raising.  (The index is position-sorted by construction
in the C++ std::set; that fact is the hypothesis here.) -/
theorem checkState_error_iff (s : SVLocusSet) (isCheckOverlap : Bool)
    (hsort : SVLocusSet.indexSorted s) :
    s.checkState isCheckOverlap ≠ .ok () ↔
      ((∃ i, i < s.loci.length ∧ ∃ j, j < (s.getLocusD i).nodes.length ∧
          ((i, j) : NodeAddressType) ∉ s.inodes) ∨
       s.totalNodeCount ≠ s.inodes.length ∨
       (isCheckOverlap = true ∧
         ((∃ a ∈ s.inodes, ¬ ((s.intervalD a).bpos < (s.intervalD a).epos)) ∨
          (∃ k, k + 1 < s.inodes.length ∧
            (s.intervalD (s.inodes.getD k (0, 0))).isIntersect
              (s.intervalD (s.inodes.getD (k + 1) (0, 0))) = true)))) := by
  cases hfm : s.firstMissing with
  | some a =>
    have hD1 : ∃ i, i < s.loci.length ∧ ∃ j, j < (s.getLocusD i).nodes.length ∧
        ((i, j) : NodeAddressType) ∉ s.inodes := by
      by_contra hno
      push_neg at hno
      have hnone : s.firstMissing = none := by
        rw [firstMissing_none_iff]
        intro i hi j hj
        exact hno i hi j hj
      rw [hnone] at hfm
      exact absurd hfm (by simp)
    rw [checkState_eq_missing s isCheckOverlap a hfm]
    constructor
    · intro _
      exact Or.inl hD1
    · intro _
      simp
  | none =>
    have hall := (firstMissing_none_iff s).mp hfm
    have hD1 : ¬ (∃ i, i < s.loci.length ∧ ∃ j, j < (s.getLocusD i).nodes.length ∧
        ((i, j) : NodeAddressType) ∉ s.inodes) := by
      rintro ⟨i, hi, j, hj, hnm⟩
      exact hnm (hall i hi j hj)
    by_cases hcnt : s.totalNodeCount ≠ s.inodes.length
    · rw [checkState_eq_countMismatch s isCheckOverlap hfm hcnt]
      constructor
      · intro _
        exact Or.inr (Or.inl hcnt)
      · intro _
        simp
    · cases isCheckOverlap with
      | false =>
        rw [checkState_eq_ok_noCheck s hfm hcnt]
        constructor
        · intro h
          exact absurd rfl h
        · rintro (h | h | ⟨hb, _⟩)
          · exact absurd h hD1
          · exact absurd h hcnt
          · exact absurd hb (by simp)
      | true =>
        have hwiff := overlapWalk_none_iff s s.inodes none
        rw [show (Option.map (fun p => (p, s.intervalD p))
            (none : Option NodeAddressType)) = none from rfl] at hwiff
        cases hw : s.overlapWalk none s.inodes with
        | some e =>
          rw [checkState_eq_walk_error s e hfm hcnt hw]
          constructor
          · intro _
            right
            right
            refine ⟨rfl, ?_⟩
            have hnw : ¬ ((∀ a ∈ s.inodes,
                (s.intervalD a).bpos < (s.intervalD a).epos) ∧
                SVLocusSet.walkPairsOk s none s.inodes) := by
              intro hcon
              have hcn := hwiff.mpr hcon
              rw [hcn] at hw
              exact absurd hw (by simp)
            by_cases hpos : ∀ a ∈ s.inodes,
                (s.intervalD a).bpos < (s.intervalD a).epos
            · right
              have hnpair : ¬ SVLocusSet.walkPairsOk s none s.inodes :=
                fun hp => hnw ⟨hpos, hp⟩
              rw [walkPairsOk_none_iff] at hnpair
              push_neg at hnpair
              obtain ⟨k, hk, hbad⟩ := hnpair
              exact ⟨k, hk, (adjacent_bad_iff_intersect s hsort hpos k hk).mp hbad⟩
            · left
              push_neg at hpos
              obtain ⟨a, ha, hp⟩ := hpos
              exact ⟨a, ha, by omega⟩
          · intro _
            simp
        | none =>
          have hok := hwiff.mp hw
          rw [checkState_eq_walk_ok s hfm hcnt hw]
          constructor
          · intro h
            exact absurd rfl h
          · rintro (h | h | ⟨_, hd⟩)
            · exact absurd h hD1
            · exact absurd h hcnt
            · rcases hd with ⟨a, ha, hp⟩ | ⟨k, hk, hint⟩
              · exact absurd (hok.1 a ha) hp
              · have hpair := hok.2
                rw [walkPairsOk_none_iff] at hpair
                exact absurd ((adjacent_bad_iff_intersect s hsort hok.1 k hk).mpr hint)
                  (hpair k hk)

/-- Witness for C9: on a collection holding two overlapping same-chromosome
index entries, checkState with overlap checking fails (the amended overlap
disjunct holds at the adjacent pair 0,1). -/
theorem checkState_error_iff_witness :
    overlappingPairState.checkState true ≠ .ok () := by
  have h := checkState_error_iff overlappingPairState true
    (by unfold SVLocusSet.indexSorted; decide)
  refine h.mpr ?_
  right
  right
  refine ⟨rfl, Or.inr ⟨0, by decide, by decide⟩⟩

/-! C6: getRegionIntersect — exactness and state restoration. -/

theorem set_append_length (l : List SVLocus) (x y : SVLocus) :
    (l ++ [x]).set l.length y = l ++ [y] := by
  induction l with
  | nil => rfl
  | cons a r ih =>
    show a :: (r ++ [x]).set r.length y = a :: (r ++ [y])
    rw [ih]

theorem set_getElem_self (l : List SVLocus) (n : Nat) (h : n < l.length) :
    l.set n l[n] = l := by
  apply List.ext_getElem
  · simp
  · intro i h1 h2
    rw [List.getElem_set]
    split
    · rename_i heq
      subst heq
      rfl
    · rfl

theorem emptyInsert_head (k : Nat) (rest : List Nat)
    (h : ∀ j ∈ rest, k < j) :
    SVLocusSet.emptyInsert k rest = k :: rest := by
  cases rest with
  | nil => rfl
  | cons j r =>
    have hj := h j (List.mem_cons_self j r)
    show (if j < k then _ else if k < j then _ else _) = _
    rw [if_neg (by omega), if_pos hj]

theorem indexInsert_mem (s : SVLocusSet) (b : NodeAddressType) :
    ∀ (l : List NodeAddressType) (x : NodeAddressType),
    x ∈ s.indexInsert b l ↔ (x = b ∨ x ∈ l) := by
  intro l
  induction l with
  | nil =>
    intro x
    show x ∈ [b] ↔ _
    simp
  | cons e r ih =>
    intro x
    show x ∈ (if s.nodeKeyLT e b then e :: s.indexInsert b r
      else if s.nodeKeyLT b e then b :: e :: r else e :: r) ↔ _
    by_cases h1 : s.nodeKeyLT e b = true
    · rw [if_pos h1]
      simp only [List.mem_cons, ih x]
      tauto
    · rw [if_neg h1]
      by_cases h2 : s.nodeKeyLT b e = true
      · rw [if_pos h2]
        simp only [List.mem_cons]
      · rw [if_neg h2]
        have heb : e = b := nodeKeyLT_asymm_eq s e b
          (Bool.not_eq_true _ ▸ h1) (Bool.not_eq_true _ ▸ h2)
        subst heb
        simp only [List.mem_cons]
        tauto

theorem indexInsert_sorted (s : SVLocusSet) (b : NodeAddressType) :
    ∀ l : List NodeAddressType,
    l.Pairwise (fun x y => s.nodeKeyLT x y = true) →
    (s.indexInsert b l).Pairwise (fun x y => s.nodeKeyLT x y = true) := by
  intro l
  induction l with
  | nil =>
    intro _
    simp [SVLocusSet.indexInsert]
  | cons e r ih =>
    intro hp
    rw [List.pairwise_cons] at hp
    obtain ⟨he, hr⟩ := hp
    show List.Pairwise _ (if s.nodeKeyLT e b then e :: s.indexInsert b r
      else if s.nodeKeyLT b e then b :: e :: r else e :: r)
    by_cases h1 : s.nodeKeyLT e b = true
    · rw [if_pos h1]
      rw [List.pairwise_cons]
      refine ⟨?_, ih hr⟩
      intro x hx
      rcases (indexInsert_mem s b r x).mp hx with hx | hx
      · rw [hx]; exact h1
      · exact he x hx
    · rw [if_neg h1]
      by_cases h2 : s.nodeKeyLT b e = true
      · rw [if_pos h2]
        rw [List.pairwise_cons]
        refine ⟨?_, List.pairwise_cons.mpr ⟨he, hr⟩⟩
        intro x hx
        rcases List.mem_cons.mp hx with hx | hx
        · rw [hx]; exact h2
        · exact nodeKeyLT_trans s b e x h2 (he x hx)
      · rw [if_neg h2]
        exact List.pairwise_cons.mpr ⟨he, hr⟩

theorem indexInsert_filter_out (s : SVLocusSet) (b : NodeAddressType) (i : Nat)
    (hbi : b.1 = i) :
    ∀ l : List NodeAddressType, (∀ x ∈ l, x.1 ≠ i) →
    (s.indexInsert b l).filter (fun a => a.1 ≠ i) = l := by
  intro l
  induction l with
  | nil =>
    intro _
    show List.filter _ [b] = []
    simp [hbi]
  | cons e r ih =>
    intro hall
    have he : e.1 ≠ i := hall e (List.mem_cons_self e r)
    show List.filter _ (if s.nodeKeyLT e b then e :: s.indexInsert b r
      else if s.nodeKeyLT b e then b :: e :: r else e :: r) = e :: r
    by_cases h1 : s.nodeKeyLT e b = true
    · rw [if_pos h1]
      rw [List.filter_cons_of_pos (by simpa using he)]
      rw [ih (fun x hx => hall x (List.mem_cons_of_mem e hx))]
    · rw [if_neg h1]
      by_cases h2 : s.nodeKeyLT b e = true
      · rw [if_pos h2]
        rw [List.filter_cons_of_neg (by simp [hbi])]
        exact List.filter_eq_self.mpr (fun x hx => by simpa using hall x hx)
      · rw [if_neg h2]
        have heb : e = b := nodeKeyLT_asymm_eq s e b
          (Bool.not_eq_true _ ▸ h1) (Bool.not_eq_true _ ▸ h2)
        rw [heb] at he
        exact absurd hbi he

theorem svlocusset_eq (x y : SVLocusSet) (h1 : x.header = y.header)
    (h2 : x.loci = y.loci) (h3 : x.emptyLoci = y.emptyLoci)
    (h4 : x.inodes = y.inodes) (h5 : x.source = y.source) : x = y := by
  cases x
  cases y
  simp_all


/-- Shape of getRegionIntersect when the free-slot set is empty: a fresh
locus slot is appended at the end of the arena, the synthetic query node is
placed there and registered in the index, and the returned collection is
that state with the fresh locus cleared again. -/
theorem getRegionIntersect_eq_append (s : SVLocusSet) (tid b e : Int)
    (hemp : s.emptyLoci = []) :
    s.getRegionIntersect tid b e =
      ((SVLocusSet.mk s.header
          (s.loci ++ [⟨s.loci.length, [⟨⟨tid, b, e⟩, 0, []⟩]⟩]) []
          (SVLocusSet.indexInsert
            (SVLocusSet.mk s.header
              (s.loci ++ [⟨s.loci.length, [⟨⟨tid, b, e⟩, 0, []⟩]⟩]) []
              s.inodes s.source)
            (s.loci.length, 0) s.inodes) s.source).getNodeIntersect
        s.loci.length 0,
       (SVLocusSet.mk s.header
          (s.loci ++ [⟨s.loci.length, [⟨⟨tid, b, e⟩, 0, []⟩]⟩]) []
          (SVLocusSet.indexInsert
            (SVLocusSet.mk s.header
              (s.loci ++ [⟨s.loci.length, [⟨⟨tid, b, e⟩, 0, []⟩]⟩]) []
              s.inodes s.source)
            (s.loci.length, 0) s.inodes) s.source).clearLocus
        s.loci.length) := by
  unfold SVLocusSet.getRegionIntersect SVLocusSet.insertLocus
  rw [hemp]
  simp only []
  have hg1 : (SVLocusSet.mk s.header
      (s.loci ++ [(⟨s.loci.length, []⟩ : SVLocus)]) [] s.inodes
      s.source).getLocusD s.loci.length = (⟨s.loci.length, []⟩ : SVLocus) := by
    show (s.loci ++ [(⟨s.loci.length, []⟩ : SVLocus)]).getD s.loci.length
        (⟨s.loci.length, []⟩ : SVLocus) = _
    rw [List.getD_eq_getElem?_getD, List.getElem?_concat_length]
    rfl
  rw [hg1]
  simp only [SVLocus.copyLocus, SVLocus.addNode, SVLocusSet.setLocus,
    SVLocusSet.indexAddRange, List.map_nil, List.append_nil, List.nil_append,
    List.range_zero, List.foldl_nil, List.length_nil]
  rw [set_append_length]
  rw [hg1]
  rw [set_append_length]
  rfl

theorem getRegionIntersect_eq_reuse (s : SVLocusSet) (tid b e : Int)
    (k : Nat) (rest : List Nat)
    (hemp : s.emptyLoci = k :: rest) (hk : k < s.loci.length)
    (hbase : s.getLocusD k = ⟨k, []⟩) :
    s.getRegionIntersect tid b e =
      ((SVLocusSet.mk s.header (s.loci.set k ⟨k, [⟨⟨tid, b, e⟩, 0, []⟩]⟩) rest
          (SVLocusSet.indexInsert
            (SVLocusSet.mk s.header (s.loci.set k ⟨k, [⟨⟨tid, b, e⟩, 0, []⟩]⟩) rest
              s.inodes s.source)
            (k, 0) s.inodes) s.source).getNodeIntersect k 0,
       (SVLocusSet.mk s.header (s.loci.set k ⟨k, [⟨⟨tid, b, e⟩, 0, []⟩]⟩) rest
          (SVLocusSet.indexInsert
            (SVLocusSet.mk s.header (s.loci.set k ⟨k, [⟨⟨tid, b, e⟩, 0, []⟩]⟩) rest
              s.inodes s.source)
            (k, 0) s.inodes) s.source).clearLocus k) := by
  unfold SVLocusSet.getRegionIntersect SVLocusSet.insertLocus
  rw [hemp]
  simp only []
  have hg1 : (SVLocusSet.mk s.header s.loci rest s.inodes s.source).getLocusD k =
      (⟨k, []⟩ : SVLocus) := hbase
  rw [hg1]
  simp only [SVLocus.copyLocus, SVLocus.addNode, SVLocusSet.setLocus,
    SVLocusSet.indexAddRange, List.map_nil, List.append_nil, List.nil_append,
    List.range_zero, List.foldl_nil, List.length_nil]
  have hg2 : (SVLocusSet.mk s.header (s.loci.set k (⟨k, []⟩ : SVLocus)) rest
      s.inodes s.source).getLocusD k = (⟨k, []⟩ : SVLocus) := by
    show (s.loci.set k (⟨k, []⟩ : SVLocus)).getD k (⟨k, []⟩ : SVLocus) = _
    rw [List.getD_eq_getElem?_getD, List.getElem?_set_self (by simpa using hk)]
    rfl
  rw [hg2]
  simp only [List.nil_append]
  rw [List.set_set]
  rfl

theorem stagedQuery_intervalD_ne (s : SVLocusSet) (tid b e : Int)
    (k : Nat) (rest : List Nat) (a : NodeAddressType) (ha : a.1 ≠ k) :
    (stagedQuery s tid b e k rest).intervalD a = s.intervalD a := by
  unfold stagedQuery SVLocusSet.intervalD SVLocusSet.nodeOf
  have hget : (s.loci.set k (⟨k, [⟨⟨tid, b, e⟩, 0, []⟩]⟩ : SVLocus)).get? a.1 =
      s.loci.get? a.1 := by
    rw [List.get?_eq_getElem?, List.get?_eq_getElem?,
      List.getElem?_set_ne (fun hx => ha hx.symm)]
  rw [hget]

theorem stagedQuery_intervalD_self (s : SVLocusSet) (tid b e : Int)
    (k : Nat) (rest : List Nat) (hk : k < s.loci.length) :
    (stagedQuery s tid b e k rest).intervalD (k, 0) = ⟨tid, b, e⟩ := by
  unfold stagedQuery SVLocusSet.intervalD SVLocusSet.nodeOf
  have hget : (s.loci.set k (⟨k, [⟨⟨tid, b, e⟩, 0, []⟩]⟩ : SVLocus)).get? k =
      some (⟨k, [⟨⟨tid, b, e⟩, 0, []⟩]⟩ : SVLocus) := by
    rw [List.get?_eq_getElem?, List.getElem?_set_self hk]
  rw [hget]
  rfl

theorem stagedQuery_nodeKeyLT_ne (s : SVLocusSet) (tid b e : Int)
    (k : Nat) (rest : List Nat) (x y : NodeAddressType)
    (hx : x.1 ≠ k) (hy : y.1 ≠ k) :
    (stagedQuery s tid b e k rest).nodeKeyLT x y = s.nodeKeyLT x y := by
  unfold SVLocusSet.nodeKeyLT
  rw [stagedQuery_intervalD_ne s tid b e k rest x hx,
    stagedQuery_intervalD_ne s tid b e k rest y hy]

/-- C6 corrected: a region query on a collection with a recycled free slot
available (whose index is sorted, positive, pairwise non-overlapping and
carries no entry of the free slot) returns exactly the index entries whose
intervals intersect the queried chromosome range, and the collection is
restored exactly; but byte-for-byte unchangedness does not hold in general:
with no free slot the call permanently grows the locus arena and the
free-slot set (see the counterexample). -/
theorem getRegionIntersect_spec (s : SVLocusSet) (tid b e : Int)
    (k : Nat) (rest : List Nat)
    (hemp : s.emptyLoci = k :: rest) (hk : k < s.loci.length)
    (hbase : s.getLocusD k = ⟨k, []⟩)
    (hkfree : ∀ a ∈ s.inodes, a.1 ≠ k)
    (hrest : ∀ j ∈ rest, k < j)
    (hbe : b < e)
    (hsort : SVLocusSet.indexSorted s)
    (hpos : SVLocusSet.indexPositive s)
    (hno : SVLocusSet.indexNonOverlap s) :
    (∀ a : NodeAddressType, a ∈ (s.getRegionIntersect tid b e).1 ↔
      (a ∈ s.inodes ∧
        GenomeInterval.isIntersect ⟨tid, b, e⟩ (s.intervalD a) = true)) ∧
    (s.getRegionIntersect tid b e).2 = s := by
  have hq : s.getRegionIntersect tid b e =
      ((stagedQuery s tid b e k rest).getNodeIntersect k 0,
       (stagedQuery s tid b e k rest).clearLocus k) :=
    getRegionIntersect_eq_reuse s tid b e k rest hemp hk hbase
  have hmemq : ∀ a : NodeAddressType,
      a ∈ (stagedQuery s tid b e k rest).inodes ↔ (a = (k, 0) ∨ a ∈ s.inodes) :=
    fun a => indexInsert_mem _ (k, 0) s.inodes a
  have hpre : s.inodes.Pairwise (fun x y =>
      (SVLocusSet.mk s.header (s.loci.set k ⟨k, [⟨⟨tid, b, e⟩, 0, []⟩]⟩) rest
        s.inodes s.source).nodeKeyLT x y = true) := by
    refine List.Pairwise.imp_of_mem ?_ hsort
    intro x y hxm hym hxy
    show (stagedQuery s tid b e k rest).nodeKeyLT x y = true
    rw [stagedQuery_nodeKeyLT_ne s tid b e k rest x y (hkfree x hxm) (hkfree y hym)]
    exact hxy
  have hsortq : SVLocusSet.indexSorted (stagedQuery s tid b e k rest) :=
    indexInsert_sorted _ (k, 0) s.inodes hpre
  have hposq : SVLocusSet.indexPositive (stagedQuery s tid b e k rest) := by
    intro a ha
    rcases (hmemq a).mp ha with h0 | h0
    · subst h0
      rw [stagedQuery_intervalD_self s tid b e k rest hk]
      exact hbe
    · rw [stagedQuery_intervalD_ne s tid b e k rest a (hkfree a h0)]
      exact hpos a h0
  have hnoq : SVLocusSet.indexNonOverlapAt (stagedQuery s tid b e k rest) k := by
    intro a ha c hc hac haL hcL
    have has : a ∈ s.inodes := by
      rcases (hmemq a).mp ha with h0 | h0
      · exact absurd (by rw [h0]) haL
      · exact h0
    have hcs : c ∈ s.inodes := by
      rcases (hmemq c).mp hc with h0 | h0
      · exact absurd (by rw [h0]) hcL
      · exact h0
    rw [stagedQuery_intervalD_ne s tid b e k rest a haL,
      stagedQuery_intervalD_ne s tid b e k rest c hcL]
    exact hno a has c hcs hac
  have hivpos : ((stagedQuery s tid b e k rest).intervalD (k, 0)).bpos <
      ((stagedQuery s tid b e k rest).intervalD (k, 0)).epos := by
    rw [stagedQuery_intervalD_self s tid b e k rest hk]
    exact hbe
  constructor
  · intro a
    rw [hq]
    show a ∈ (stagedQuery s tid b e k rest).getNodeIntersect k 0 ↔ _
    rw [getNodeIntersect_exact_core (stagedQuery s tid b e k rest) k 0
      hsortq hposq hnoq hivpos a]
    constructor
    · rintro ⟨hmem, haL, hint⟩
      have has : a ∈ s.inodes := by
        rcases (hmemq a).mp hmem with h0 | h0
        · exact absurd (by rw [h0]) haL
        · exact h0
      refine ⟨has, ?_⟩
      rw [stagedQuery_intervalD_self s tid b e k rest hk,
        stagedQuery_intervalD_ne s tid b e k rest a haL] at hint
      exact hint
    · rintro ⟨has, hint⟩
      refine ⟨(hmemq a).mpr (Or.inr has), hkfree a has, ?_⟩
      rw [stagedQuery_intervalD_self s tid b e k rest hk,
        stagedQuery_intervalD_ne s tid b e k rest a (hkfree a has)]
      exact hint
  · rw [hq]
    show (stagedQuery s tid b e k rest).clearLocus k = s
    have hbk : s.loci[k] = (⟨k, []⟩ : SVLocus) := by
      have h1 : s.loci.getD k (⟨k, []⟩ : SVLocus) = ⟨k, []⟩ := hbase
      rw [List.getD_eq_getElem?_getD, List.getElem?_eq_getElem hk] at h1
      exact h1
    have hgq : (stagedQuery s tid b e k rest).getLocusD k =
        (⟨k, [⟨⟨tid, b, e⟩, 0, []⟩]⟩ : SVLocus) := by
      show (s.loci.set k (⟨k, [⟨⟨tid, b, e⟩, 0, []⟩]⟩ : SVLocus)).getD k _ = _
      rw [List.getD_eq_getElem?_getD, List.getElem?_set_self (by simpa using hk)]
      rfl
    unfold SVLocusSet.clearLocus
    refine svlocusset_eq _ _ rfl ?_ ?_ ?_ rfl
    · show (stagedQuery s tid b e k rest).loci.set k
        { (stagedQuery s tid b e k rest).getLocusD k with nodes := [] } = s.loci
      rw [hgq]
      show (s.loci.set k (⟨k, [⟨⟨tid, b, e⟩, 0, []⟩]⟩ : SVLocus)).set k
        (⟨k, []⟩ : SVLocus) = s.loci
      rw [List.set_set, ← hbk]
      exact set_getElem_self s.loci k hk
    · show SVLocusSet.emptyInsert k rest = s.emptyLoci
      rw [emptyInsert_head k rest hrest, hemp]
    · show List.filter _ ((SVLocusSet.mk s.header
        (s.loci.set k ⟨k, [⟨⟨tid, b, e⟩, 0, []⟩]⟩) rest s.inodes
        s.source).indexInsert (k, 0) s.inodes) = s.inodes
      exact indexInsert_filter_out _ (k, 0) k rfl s.inodes hkfree

/-- C6 counterexample: on a collection with no free slot the claimed
byte-for-byte state restoration fails — querying the empty collection
appends a fresh (empty) locus slot and records it in the free-slot set, so
the returned collection differs from the original. -/
theorem getRegionIntersect_state_counterexample :
    (emptyCollection.getRegionIntersect 0 0 10).2 ≠ emptyCollection := by
  decide

/-- Witness for C6 corrected: the exactness-and-restoration property
evaluated on a one-node collection with a recycled free slot, for the query
chr0:[5,15). -/
theorem getRegionIntersect_spec_witness :
    (∀ a : NodeAddressType,
      a ∈ (regionQueryState.getRegionIntersect 0 5 15).1 ↔
      (a ∈ regionQueryState.inodes ∧
        GenomeInterval.isIntersect ⟨0, 5, 15⟩ (regionQueryState.intervalD a) =
          true)) ∧
    (regionQueryState.getRegionIntersect 0 5 15).2 = regionQueryState := by
  refine getRegionIntersect_spec regionQueryState 0 5 15 1 [] rfl (by decide)
    (by decide) (by decide) (by decide) (by decide) ?_ ?_ ?_
  · unfold SVLocusSet.indexSorted
    decide
  · unfold SVLocusSet.indexPositive
    decide
  · unfold SVLocusSet.indexNonOverlap
    decide

/-! C7: save/load round trip. -/

theorem nodeAtL_lt (L : List SVLocus) (a : NodeAddressType) (iv : GenomeInterval)
    (h : nodeAtL L a = some iv) :
    a.1 < L.length ∧ a.2 < (L.getD a.1 ⟨0, []⟩).nodes.length ∧
      iv = ((L.getD a.1 ⟨0, []⟩).nodes.getD a.2 default).interval := by
  unfold nodeAtL at h
  rw [List.get?_eq_getElem?] at h
  cases hg : L[a.1]? with
  | none =>
    rw [hg] at h
    exact absurd h (by simp)
  | some l =>
    rw [hg] at h
    have hlen : a.1 < L.length := by
      by_contra hc
      rw [List.getElem?_eq_none (by omega)] at hg
      exact absurd hg (by simp)
    have hl : L.getD a.1 ⟨0, []⟩ = l := by
      rw [List.getD_eq_getElem?_getD, hg]
      rfl
    rw [Option.some_bind, List.get?_eq_getElem?] at h
    cases hn : l.nodes[a.2]? with
    | none =>
      rw [hn] at h
      exact absurd h (by simp)
    | some n =>
      rw [hn] at h
      have hnlen : a.2 < l.nodes.length := by
        by_contra hc
        rw [List.getElem?_eq_none (by omega)] at hn
        exact absurd hn (by simp)
      have hnd : l.nodes.getD a.2 default = n := by
        rw [List.getD_eq_getElem?_getD, hn]
        rfl
      refine ⟨hlen, by rw [hl]; exact hnlen, ?_⟩
      rw [hl, hnd]
      simp only [Option.map_some'] at h
      cases h
      rfl

theorem nodeAtL_of_lt (L : List SVLocus) (a : NodeAddressType)
    (h1 : a.1 < L.length) (h2 : a.2 < (L.getD a.1 ⟨0, []⟩).nodes.length) :
    nodeAtL L a = some ((L.getD a.1 ⟨0, []⟩).nodes.getD a.2 default).interval := by
  unfold nodeAtL
  rw [List.get?_eq_getElem?, List.getElem?_eq_getElem h1]
  have hl : L.getD a.1 ⟨0, []⟩ = L[a.1] := List.getD_eq_getElem L ⟨0, []⟩ h1
  rw [hl] at h2 ⊢
  rw [Option.some_bind, List.get?_eq_getElem?, List.getElem?_eq_getElem h2]
  rw [List.getD_eq_getElem L[a.1].nodes default h2]
  rfl

theorem relabel_nodeAtL (a : NodeAddressType) :
    ∀ (L : List SVLocus) (n : Nat), nodeAtL (SVLocusSet.relabelLoci n L) a = nodeAtL L a := by
  obtain ⟨a1, a2⟩ := a
  induction a1 with
  | zero =>
    intro L n
    cases L with
    | nil => rfl
    | cons l rest => rfl
  | succ a1 ih =>
    intro L n
    cases L with
    | nil => rfl
    | cons l rest =>
      show nodeAtL (SVLocusSet.relabelLoci (n + 1) rest) (a1, a2) = nodeAtL rest (a1, a2)
      exact ih rest (n + 1)

theorem relabel_map_nodes : ∀ (L : List SVLocus) (n : Nat),
    (SVLocusSet.relabelLoci n L).map (fun l => l.nodes) = L.map (fun l => l.nodes) := by
  intro L
  induction L with
  | nil => intro n; rfl
  | cons l rest ih =>
    intro n
    show l.nodes :: (SVLocusSet.relabelLoci (n + 1) rest).map _ = l.nodes :: rest.map _
    rw [ih (n + 1)]

theorem relabel_length : ∀ (L : List SVLocus) (n : Nat),
    (SVLocusSet.relabelLoci n L).length = L.length := by
  intro L
  induction L with
  | nil => intro n; rfl
  | cons l rest ih =>
    intro n
    show (SVLocusSet.relabelLoci (n + 1) rest).length + 1 = rest.length + 1
    rw [ih (n + 1)]

theorem relabel_map_index : ∀ (L : List SVLocus) (n : Nat),
    (SVLocusSet.relabelLoci n L).map (fun l => l.index) = List.range' n L.length := by
  intro L
  induction L with
  | nil => intro n; rfl
  | cons l rest ih =>
    intro n
    show n :: (SVLocusSet.relabelLoci (n + 1) rest).map _ = List.range' n (rest.length + 1)
    rw [ih (n + 1), List.range'_succ]

theorem relabel_mem (l' : SVLocus) : ∀ (L : List SVLocus) (n : Nat),
    l' ∈ SVLocusSet.relabelLoci n L → ∃ l ∈ L, l'.nodes = l.nodes := by
  intro L
  induction L with
  | nil =>
    intro n h
    exact absurd h (List.not_mem_nil l')
  | cons l rest ih =>
    intro n h
    rcases List.mem_cons.mp h with h0 | h0
    · exact ⟨l, List.mem_cons_self l rest, by rw [h0]⟩
    · obtain ⟨x, hx, hnx⟩ := ih (n + 1) h0
      exact ⟨x, List.mem_cons_of_mem l hx, hnx⟩

theorem filter_nodeAtL_exists (p : SVLocus → Bool) (iv : GenomeInterval) :
    ∀ (L : List SVLocus) (a : NodeAddressType),
    nodeAtL (L.filter p) a = some iv → ∃ b, nodeAtL L b = some iv := by
  intro L
  induction L with
  | nil =>
    intro a h
    exact absurd h (by simp [nodeAtL])
  | cons x rest ih =>
    intro a h
    by_cases hp : p x
    · rw [List.filter_cons_of_pos hp] at h
      obtain ⟨a1, a2⟩ := a
      cases a1 with
      | zero => exact ⟨(0, a2), h⟩
      | succ a1 =>
        have h' : nodeAtL (rest.filter p) (a1, a2) = some iv := h
        obtain ⟨b, hb⟩ := ih (a1, a2) h'
        exact ⟨(b.1 + 1, b.2), hb⟩
    · rw [List.filter_cons_of_neg hp] at h
      obtain ⟨b, hb⟩ := ih a h
      exact ⟨(b.1 + 1, b.2), hb⟩

theorem filter_nonOverlap (p : SVLocus → Bool) :
    ∀ L : List SVLocus,
    (∀ (a b : NodeAddressType) (iva ivb : GenomeInterval),
      nodeAtL L a = some iva → nodeAtL L b = some ivb → a ≠ b →
      iva.isIntersect ivb = false) →
    (∀ (a b : NodeAddressType) (iva ivb : GenomeInterval),
      nodeAtL (L.filter p) a = some iva → nodeAtL (L.filter p) b = some ivb →
      a ≠ b → iva.isIntersect ivb = false) := by
  intro L
  induction L with
  | nil =>
    intro _ a b iva ivb ha
    exact absurd ha (by simp [nodeAtL])
  | cons x rest ih =>
    intro h
    have hrest : ∀ (a b : NodeAddressType) (iva ivb : GenomeInterval),
        nodeAtL rest a = some iva → nodeAtL rest b = some ivb → a ≠ b →
        iva.isIntersect ivb = false := by
      intro a b iva ivb ha hb hne
      refine h (a.1 + 1, a.2) (b.1 + 1, b.2) iva ivb ha hb ?_
      intro hh
      injection hh with hh1 hh2
      apply hne
      exact Prod.ext (by omega) hh2
    by_cases hp : p x
    · rw [List.filter_cons_of_pos hp]
      intro a b iva ivb ha hb hne
      obtain ⟨a1, a2⟩ := a
      obtain ⟨b1, b2⟩ := b
      cases a1 with
      | zero =>
        cases b1 with
        | zero => exact h (0, a2) (0, b2) iva ivb ha hb hne
        | succ b1 =>
          have hb' : nodeAtL (rest.filter p) (b1, b2) = some ivb := hb
          obtain ⟨c, hc⟩ := filter_nodeAtL_exists p ivb rest (b1, b2) hb'
          refine h (0, a2) (c.1 + 1, c.2) iva ivb ha hc ?_
          intro hh
          exact absurd (congrArg Prod.fst hh) (by simp)
      | succ a1 =>
        cases b1 with
        | zero =>
          have ha' : nodeAtL (rest.filter p) (a1, a2) = some iva := ha
          obtain ⟨c, hc⟩ := filter_nodeAtL_exists p iva rest (a1, a2) ha'
          refine h (c.1 + 1, c.2) (0, b2) iva ivb hc hb ?_
          intro hh
          exact absurd (congrArg Prod.fst hh) (by simp)
        | succ b1 =>
          refine ih hrest (a1, a2) (b1, b2) iva ivb ha hb ?_
          intro hh
          injection hh with hh1 hh2
          apply hne
          rw [show a1 = b1 from hh1, hh2]
    · rw [List.filter_cons_of_neg hp]
      exact ih hrest

theorem indexInsert_length (s : SVLocusSet) (a : NodeAddressType) :
    ∀ L : List NodeAddressType, a ∉ L →
    (s.indexInsert a L).length = L.length + 1 := by
  intro L
  induction L with
  | nil => intro _; rfl
  | cons e r ih =>
    intro h
    have hne : a ≠ e := fun hh => h (hh ▸ List.mem_cons_self e r)
    have hnr : a ∉ r := fun hh => h (List.mem_cons_of_mem e hh)
    show (if s.nodeKeyLT e a then e :: s.indexInsert a r
      else if s.nodeKeyLT a e then a :: e :: r else e :: r).length = r.length + 1 + 1
    by_cases h1 : s.nodeKeyLT e a = true
    · rw [if_pos h1]
      show (s.indexInsert a r).length + 1 = r.length + 1 + 1
      rw [ih hnr]
    · rw [if_neg h1]
      by_cases h2 : s.nodeKeyLT a e = true
      · rw [if_pos h2]
        rfl
      · exact absurd (nodeKeyLT_asymm_eq s a e (Bool.eq_false_iff.mpr h2)
          (Bool.eq_false_iff.mpr h1)) hne

theorem foldIns_mem (s : SVLocusSet) (x : NodeAddressType) :
    ∀ (l init : List NodeAddressType),
    x ∈ l.foldl (fun acc a => s.indexInsert a acc) init ↔ (x ∈ l ∨ x ∈ init) := by
  intro l
  induction l with
  | nil =>
    intro init
    simp
  | cons a r ih =>
    intro init
    show x ∈ r.foldl _ (s.indexInsert a init) ↔ _
    rw [ih (s.indexInsert a init), indexInsert_mem s a init x, List.mem_cons]
    tauto

theorem foldIns_sorted (s : SVLocusSet) :
    ∀ (l init : List NodeAddressType),
    init.Pairwise (fun x y => s.nodeKeyLT x y = true) →
    (l.foldl (fun acc a => s.indexInsert a acc) init).Pairwise
      (fun x y => s.nodeKeyLT x y = true) := by
  intro l
  induction l with
  | nil => intro init h; exact h
  | cons a r ih =>
    intro init h
    exact ih _ (indexInsert_sorted s a init h)

theorem foldIns_length (s : SVLocusSet) :
    ∀ (l init : List NodeAddressType), l.Nodup → (∀ x ∈ l, x ∉ init) →
    (l.foldl (fun acc a => s.indexInsert a acc) init).length =
      init.length + l.length := by
  intro l
  induction l with
  | nil => intro init _ _; rfl
  | cons a r ih =>
    intro init hnd hdis
    have hna : a ∉ init := hdis a (List.mem_cons_self a r)
    rw [List.nodup_cons] at hnd
    obtain ⟨har, hrnd⟩ := hnd
    have hdis' : ∀ x ∈ r, x ∉ s.indexInsert a init := by
      intro x hx hmem
      rw [indexInsert_mem] at hmem
      rcases hmem with h0 | h0
      · rw [h0] at hx
        exact har hx
      · exact hdis x (List.mem_cons_of_mem a hx) h0
    show (r.foldl _ (s.indexInsert a init)).length = init.length + (r.length + 1)
    rw [ih (s.indexInsert a init) hrnd hdis', indexInsert_length s a init hna]
    omega

theorem addrList_mem (s : SVLocusSet) (x : NodeAddressType) :
    x ∈ (List.range s.loci.length).flatMap (fun i =>
      (List.range ((s.getLocusD i).nodes.length)).map
        (fun j => ((i, j) : NodeAddressType))) ↔
    (x.1 < s.loci.length ∧ x.2 < (s.getLocusD x.1).nodes.length) := by
  rw [List.mem_flatMap]
  constructor
  · rintro ⟨i, hi, hx⟩
    rw [List.mem_range] at hi
    rw [List.mem_map] at hx
    obtain ⟨j, hj, hxe⟩ := hx
    rw [List.mem_range] at hj
    rw [← hxe]
    exact ⟨hi, hj⟩
  · rintro ⟨h1, h2⟩
    exact ⟨x.1, List.mem_range.mpr h1,
      List.mem_map.mpr ⟨x.2, List.mem_range.mpr h2, rfl⟩⟩

theorem addrList_length (s : SVLocusSet) :
    ((List.range s.loci.length).flatMap (fun i =>
      (List.range ((s.getLocusD i).nodes.length)).map
        (fun j => ((i, j) : NodeAddressType)))).length = s.totalNodeCount := by
  rw [List.length_flatMap]
  unfold SVLocusSet.totalNodeCount
  congr 1
  apply List.ext_getElem
  · simp
  · intro i h1 h2
    simp only [List.getElem_map, List.getElem_range, Function.comp_apply,
      List.length_map, List.length_range]
    have hi : i < s.loci.length := by simpa using h2
    rw [getLocusD_eq, List.getElem?_eq_getElem hi]
    rfl

theorem addrList_nodup (s : SVLocusSet) :
    ((List.range s.loci.length).flatMap (fun i =>
      (List.range ((s.getLocusD i).nodes.length)).map
        (fun j => ((i, j) : NodeAddressType)))).Nodup := by
  rw [List.nodup_flatMap]
  constructor
  · intro i _
    refine List.Nodup.map ?_ (List.nodup_range _)
    intro j1 j2 hj
    injection hj
  · refine List.Pairwise.imp_of_mem ?_ (List.pairwise_lt_range _)
    intro i1 i2 _ _ hlt
    intro x hx1 hx2
    rw [List.mem_map] at hx1 hx2
    obtain ⟨j1, _, he1⟩ := hx1
    obtain ⟨j2, _, he2⟩ := hx2
    rw [← he1] at he2
    injection he2 with hfst _
    omega

theorem intervalD_of_nodeAtL (s : SVLocusSet) (a : NodeAddressType)
    (iv : GenomeInterval) (h : nodeAtL s.loci a = some iv) :
    s.intervalD a = iv := by
  unfold SVLocusSet.intervalD SVLocusSet.nodeOf
  unfold nodeAtL at h
  rw [h]
  rfl

theorem reconstruct_checkState_ok (s : SVLocusSet)
    (hpos : ∀ (a : NodeAddressType) (iv : GenomeInterval),
      nodeAtL s.loci a = some iv → iv.bpos < iv.epos)
    (hno : ∀ (a b : NodeAddressType) (iva ivb : GenomeInterval),
      nodeAtL s.loci a = some iva → nodeAtL s.loci b = some ivb → a ≠ b →
      iva.isIntersect ivb = false) :
    s.reconstructIndex.checkState true = .ok () := by
  have hin : s.reconstructIndex.inodes =
      ((List.range s.loci.length).flatMap (fun i =>
        (List.range ((s.getLocusD i).nodes.length)).map
          (fun j => ((i, j) : NodeAddressType)))).foldl
        (fun acc a => s.indexInsert a acc) [] := rfl
  have hmem : ∀ x : NodeAddressType, x ∈ s.reconstructIndex.inodes ↔
      (x.1 < s.loci.length ∧ x.2 < (s.getLocusD x.1).nodes.length) := by
    intro x
    rw [hin, foldIns_mem s x _ [], addrList_mem s x]
    simp
  have hnodes_eq : ∀ i, i < s.loci.length →
      (s.getLocusD i).nodes = (s.loci.getD i ⟨0, []⟩).nodes := by
    intro i hi
    rw [getLocusD_eq, List.getElem?_eq_getElem hi, List.getD_eq_getElem _ _ hi]
    rfl
  have hat : ∀ x : NodeAddressType, x ∈ s.reconstructIndex.inodes →
      ∃ iv, nodeAtL s.loci x = some iv ∧ s.reconstructIndex.intervalD x = iv := by
    intro x hx
    obtain ⟨h1, h2⟩ := (hmem x).mp hx
    have h2' : x.2 < (s.loci.getD x.1 ⟨0, []⟩).nodes.length := by
      rw [← hnodes_eq x.1 h1]
      exact h2
    have hn := nodeAtL_of_lt s.loci x h1 h2'
    exact ⟨_, hn, intervalD_of_nodeAtL s.reconstructIndex x _ hn⟩
  have hposI : ∀ a ∈ s.reconstructIndex.inodes,
      (s.reconstructIndex.intervalD a).bpos <
        (s.reconstructIndex.intervalD a).epos := by
    intro a ha
    obtain ⟨iv, hn, hit⟩ := hat a ha
    rw [hit]
    exact hpos a iv hn
  have hnoI : ∀ a ∈ s.reconstructIndex.inodes, ∀ b ∈ s.reconstructIndex.inodes,
      a ≠ b → (s.reconstructIndex.intervalD a).isIntersect
        (s.reconstructIndex.intervalD b) = false := by
    intro a ha b hb hne
    obtain ⟨iva, hna, hita⟩ := hat a ha
    obtain ⟨ivb, hnb, hitb⟩ := hat b hb
    rw [hita, hitb]
    exact hno a b iva ivb hna hnb hne
  have hsortI : SVLocusSet.indexSorted s.reconstructIndex := by
    show (s.reconstructIndex.inodes).Pairwise _
    rw [hin]
    exact foldIns_sorted s _ [] List.Pairwise.nil
  have hlen : s.reconstructIndex.inodes.length = s.totalNodeCount := by
    rw [hin, foldIns_length s _ [] (addrList_nodup s)
      (fun x _ hx => absurd hx (List.not_mem_nil x))]
    show 0 + _ = _
    rw [Nat.zero_add, addrList_length s]
  have hcnt : s.reconstructIndex.totalNodeCount =
      s.reconstructIndex.inodes.length := by
    rw [hlen]
    rfl
  have hfm : s.reconstructIndex.firstMissing = none := by
    rw [firstMissing_none_iff]
    intro i hi j hj
    exact (hmem (i, j)).mpr ⟨hi, hj⟩
  have hwalk : s.reconstructIndex.overlapWalk none s.reconstructIndex.inodes =
      none := by
    have h1 : s.reconstructIndex.overlapWalk none s.reconstructIndex.inodes =
        none ↔
        ((∀ a ∈ s.reconstructIndex.inodes,
          (s.reconstructIndex.intervalD a).bpos <
            (s.reconstructIndex.intervalD a).epos) ∧
          SVLocusSet.walkPairsOk s.reconstructIndex none
            s.reconstructIndex.inodes) :=
      overlapWalk_none_iff s.reconstructIndex s.reconstructIndex.inodes none
    refine h1.mpr ⟨hposI, ?_⟩
    rw [walkPairsOk_none_iff]
    intro k hk
    rw [adjacent_bad_iff_intersect s.reconstructIndex hsortI hposI k hk]
    have hk0 : k < s.reconstructIndex.inodes.length := by omega
    have ha : s.reconstructIndex.inodes.getD k (0, 0) ∈
        s.reconstructIndex.inodes := by
      rw [List.getD_eq_getElem _ _ hk0]
      exact List.getElem_mem hk0
    have hb : s.reconstructIndex.inodes.getD (k + 1) (0, 0) ∈
        s.reconstructIndex.inodes := by
      rw [List.getD_eq_getElem _ _ hk]
      exact List.getElem_mem hk
    have hne : s.reconstructIndex.inodes.getD k (0, 0) ≠
        s.reconstructIndex.inodes.getD (k + 1) (0, 0) := by
      have hpw := List.pairwise_iff_getElem.mp hsortI k (k + 1) hk0 hk (by omega)
      rw [List.getD_eq_getElem _ _ hk0, List.getD_eq_getElem _ _ hk]
      intro hh
      rw [hh, nodeKeyLT_irrefl] at hpw
      exact absurd hpw (by simp)
    have hff := hnoI _ ha _ hb hne
    intro hcon
    rw [hff] at hcon
    simp at hcon
  exact checkState_eq_walk_ok s.reconstructIndex hfm (fun hd => hd hcnt) hwalk

theorem lociPositive_at (L : List SVLocus) (h : lociPositive L)
    (a : NodeAddressType) (iv : GenomeInterval) (ha : nodeAtL L a = some iv) :
    iv.bpos < iv.epos := by
  obtain ⟨h1, h2, h3⟩ := nodeAtL_lt L a iv ha
  rw [h3]
  exact h a.1 h1 a.2 h2

theorem lociNonOverlap_at (L : List SVLocus) (h : lociNonOverlap L)
    (a b : NodeAddressType) (iva ivb : GenomeInterval)
    (ha : nodeAtL L a = some iva) (hb : nodeAtL L b = some ivb) (hne : a ≠ b) :
    iva.isIntersect ivb = false := by
  obtain ⟨ha1, ha2, ha3⟩ := nodeAtL_lt L a iva ha
  obtain ⟨hb1, hb2, hb3⟩ := nodeAtL_lt L b ivb hb
  rw [ha3, hb3]
  rcases h a.1 ha1 a.2 ha2 b.1 hb1 b.2 hb2 with heq | hf
  · exact absurd heq hne
  · exact hf

theorem reconstruct_emptyLoci_nil (s : SVLocusSet)
    (h : ∀ i, i < s.loci.length → (s.getLocusD i).nodes ≠ []) :
    s.reconstructIndex.emptyLoci = [] := by
  show (List.range s.loci.length).filter _ = []
  rw [List.filter_eq_nil_iff]
  intro i hi
  rw [List.mem_range] at hi
  intro hc
  exact h i hi (List.isEmpty_iff.mp hc)

/-- C7 corrected: save-then-load does NOT succeed for every collection (see
the counterexample: load re-checks the rebuilt index with overlap checking
and fails on overlapping node content); for every collection whose stored
node intervals all have positive length and are pairwise non-overlapping,
load of the saved stream succeeds and reproduces the header, every
non-empty locus's node list (intervals, counts, edges) in locus-id order
with fresh sequential locus ids, an empty free-slot set, and a collection
that passes checkState with overlap checking. -/
theorem save_load_roundtrip (s : SVLocusSet) (f : String)
    (hpos : lociPositive s.loci) (hno : lociNonOverlap s.loci) :
    ∃ t : SVLocusSet,
      SVLocusSet.load f s.save = .ok t ∧
      t.header = s.header ∧ t.source = f ∧
      t.loci.map (fun l => l.nodes) =
        (s.loci.filter (fun l => ¬ l.nodes.isEmpty)).map (fun l => l.nodes) ∧
      t.loci.map (fun l => l.index) = List.range t.loci.length ∧
      t.emptyLoci = [] ∧
      t.checkState true = .ok () := by
  have hposL : ∀ (a : NodeAddressType) (iv : GenomeInterval),
      nodeAtL (SVLocusSet.relabelLoci 0
        (s.loci.filter (fun l => ¬ l.nodes.isEmpty))) a = some iv →
      iv.bpos < iv.epos := by
    intro a iv ha
    rw [relabel_nodeAtL a (s.loci.filter (fun l => ¬ l.nodes.isEmpty)) 0] at ha
    obtain ⟨b, hb⟩ := filter_nodeAtL_exists _ iv s.loci a ha
    exact lociPositive_at s.loci hpos b iv hb
  have hnoL : ∀ (a b : NodeAddressType) (iva ivb : GenomeInterval),
      nodeAtL (SVLocusSet.relabelLoci 0
        (s.loci.filter (fun l => ¬ l.nodes.isEmpty))) a = some iva →
      nodeAtL (SVLocusSet.relabelLoci 0
        (s.loci.filter (fun l => ¬ l.nodes.isEmpty))) b = some ivb →
      a ≠ b → iva.isIntersect ivb = false := by
    intro a b iva ivb ha hb hne
    rw [relabel_nodeAtL a (s.loci.filter (fun l => ¬ l.nodes.isEmpty)) 0] at ha
    rw [relabel_nodeAtL b (s.loci.filter (fun l => ¬ l.nodes.isEmpty)) 0] at hb
    exact filter_nonOverlap _ s.loci (lociNonOverlap_at s.loci hno)
      a b iva ivb ha hb hne
  have hok : (SVLocusSet.reconstructIndex
      ⟨s.header, SVLocusSet.relabelLoci 0
        (s.loci.filter (fun l => ¬ l.nodes.isEmpty)), [], [], f⟩).checkState
      true = .ok () :=
    reconstruct_checkState_ok _ hposL hnoL
  have hdf : (s.loci.filter (fun l => ¬ l.nodes.isEmpty)).filter
      (fun l => ¬ l.nodes.isEmpty) = s.loci.filter (fun l => ¬ l.nodes.isEmpty) :=
    List.filter_eq_self.mpr (fun a ha => (List.mem_filter.mp ha).2)
  refine ⟨SVLocusSet.reconstructIndex
    ⟨s.header, SVLocusSet.relabelLoci 0
      (s.loci.filter (fun l => ¬ l.nodes.isEmpty)), [], [], f⟩,
    ?_, rfl, rfl, ?_, ?_, ?_, hok⟩
  · unfold SVLocusSet.load SVLocusSet.save
    simp only []
    rw [hdf, hok]
  · show (SVLocusSet.relabelLoci 0
      (s.loci.filter (fun l => ¬ l.nodes.isEmpty))).map (fun l => l.nodes) = _
    exact relabel_map_nodes (s.loci.filter (fun l => ¬ l.nodes.isEmpty)) 0
  · show (SVLocusSet.relabelLoci 0
      (s.loci.filter (fun l => ¬ l.nodes.isEmpty))).map (fun l => l.index) = _
    rw [relabel_map_index (s.loci.filter (fun l => ¬ l.nodes.isEmpty)) 0]
    show _ = List.range (SVLocusSet.relabelLoci 0
      (s.loci.filter (fun l => ¬ l.nodes.isEmpty))).length
    rw [relabel_length (s.loci.filter (fun l => ¬ l.nodes.isEmpty)) 0,
      List.range_eq_range']
  · refine reconstruct_emptyLoci_nil _ ?_
    intro i hi
    have hmemL : (SVLocusSet.relabelLoci 0
        (s.loci.filter (fun l => ¬ l.nodes.isEmpty)))[i] ∈
        SVLocusSet.relabelLoci 0 (s.loci.filter (fun l => ¬ l.nodes.isEmpty)) :=
      List.getElem_mem hi
    obtain ⟨l, hlf, hnodes⟩ := relabel_mem _ _ _ hmemL
    have hp := (List.mem_filter.mp hlf).2
    have hgl : (SVLocusSet.mk s.header (SVLocusSet.relabelLoci 0
        (s.loci.filter (fun l => ¬ l.nodes.isEmpty))) [] [] f).getLocusD i =
        (SVLocusSet.relabelLoci 0 (s.loci.filter (fun l => ¬ l.nodes.isEmpty)))[i] := by
      rw [getLocusD_eq, List.getElem?_eq_getElem hi]
      rfl
    rw [hgl, hnodes]
    intro hc
    rw [hc] at hp
    simp at hp

/-- C7 counterexample: the claimed universal round trip fails — saving the
collection holding two overlapping connected nodes and loading the stream
back is rejected by the terminal checkState(true) of load, so no collection
is reproduced at all. -/
theorem save_load_counterexample :
    SVLocusSet.load "" overlappingPairState.save =
      .error (.overlappingNodes (0, 0) (0, 1) ⟨0, 0, 10⟩ ⟨0, 5, 15⟩) := by
  rfl

/-- Witness for C7 corrected: the round trip evaluated on the well-formed
two-locus collection over disjoint regions. -/
theorem save_load_roundtrip_witness :
    ∃ t : SVLocusSet,
      SVLocusSet.load "x" disjointTwoLocusState.save = .ok t ∧
      t.header = disjointTwoLocusState.header ∧ t.source = "x" ∧
      t.loci.map (fun l => l.nodes) =
        (disjointTwoLocusState.loci.filter
          (fun l => ¬ l.nodes.isEmpty)).map (fun l => l.nodes) ∧
      t.loci.map (fun l => l.index) = List.range t.loci.length ∧
      t.emptyLoci = [] ∧
      t.checkState true = .ok () := by
  refine save_load_roundtrip disjointTwoLocusState "x" ?_ ?_
  · unfold lociPositive
    decide
  · unfold lociNonOverlap
    decide
